import Mathlib

/-!
# Edge-geometry compression store (Contractor/GeometryCompressor.cpp)

A shallow embedding of the `GeometryCompressor` class: the slot allocator
(`IncreaseFreeList`, the free list), the edge index (`HasEntryForID`,
`GetPositionForID`), the merge operation `CompressEdge`, the binary writer
`SerializeInternalVector`, the diagnostics `PrintStatistics` and the strict accessor
`GetBucketReference`.

Conventions of the embedding
* `std::vector` is a `List`, with `push_back` appending at the end, `back` the
  last element and `pop_back` dropping it.
* `boost::unordered_map<EdgeID, unsigned>` is an association list read through
  `mapFind`; assignment through `operator[]` is `mapInsert`, `erase` is `mapErase`.
* The file-scope variable `current_free_list_maximum` is threaded explicitly
  through every function that touches it. It is a C `int` that only ever counts
  slots upwards; the embedding keeps its mathematical value, and where the range of
  `int` matters a statement says so with `INT_MAX`.
* `Reachable` starts from a store constructed while the counter has its initial
  value 0, the first store of a process.
* A failing `BOOST_ASSERT`, a throwing `at` and a loop that cannot terminate are
  results of type `Failure`.
* `unsigned` arithmetic in the serializer is taken modulo `2^32`; `size_t` is 64 bit.
-/

namespace OSRM

/-! ## Types of typedefs.h and GeometryCompressor.h -/

/-- Modelled from the spec: the edge identifier type of typedefs.h (an `unsigned`). -/
abbrev EdgeID := Nat

/-- Modelled from the spec: the node identifier type of typedefs.h (an `unsigned`). -/
abbrev NodeID := Nat

/-- Modelled from the spec: the edge weight type of typedefs.h. It is kept as an integer and
compared with the unbounded sentinel after conversion to `unsigned`, as line 144 does. -/
abbrev EdgeWeight := Int

/-- Modelled from the spec: the pair `(nodeId, edgeWeight)` of GeometryCompressor.h. -/
abbrev CompressedNode := NodeID × EdgeWeight

/-- The value `UINT_MAX`, also `std::numeric_limits<unsigned>::max()`. -/
def UINT_MAX : Nat := 4294967295

/-- The largest value of the C type `int`, the type of `current_free_list_maximum`. -/
def INT_MAX : Nat := 2147483647

/-- Modelled from the spec: the sentinel edge identifier of typedefs.h. -/
def SPECIAL_EDGEID : EdgeID := UINT_MAX

/-- Modelled from the spec: the sentinel node identifier of typedefs.h. -/
def SPECIAL_NODEID : NodeID := UINT_MAX

/-- Conversion of a weight to `unsigned` for the comparison with the sentinel. -/
def toUnsigned (w : EdgeWeight) : Nat := (w % 4294967296).toNat

/-- The ways in which a member function does not return normally. -/
inductive Failure where
  | assertion
  | out_of_range
  | diverges
deriving DecidableEq, Repr

deriving instance DecidableEq for Except

/-! ## The edge index as an association list -/

/-- Lookup, `unordered_map::find`. -/
def mapFind : List (EdgeID × Nat) → EdgeID → Option Nat
  | [], _ => none
  | (k, v) :: rest, e => if k = e then some v else mapFind rest e

/-- Removal, `unordered_map::erase(key)`. -/
def mapErase (m : List (EdgeID × Nat)) (e : EdgeID) : List (EdgeID × Nat) :=
  m.filter (fun p => decide (p.1 ≠ e))

/-- Assignment `m[e] = v`. -/
def mapInsert (m : List (EdgeID × Nat)) (e : EdgeID) (v : Nat) : List (EdgeID × Nat) :=
  (e, v) :: mapErase m e

/-! ## The store -/

/-- Modelled from the spec: the class declaration of GeometryCompressor.h is not among the
sources; the data members are those the member functions use: the backing storage of buckets,
the free list of slot indices, and the edge index. -/
structure GeometryCompressor where
  m_compressed_geometries : List (List CompressedNode)
  m_free_list : List Nat
  m_edge_id_to_list_index_map : List (EdgeID × Nat)
deriving DecidableEq, Repr

namespace GeometryCompressor

/-- The loop of lines 48-52: `i` iterations, each pushing the counter and incrementing it. -/
def IncreaseFreeList.loop : Nat → Nat → List Nat → Nat × List Nat
  | 0, c, fl => (c, fl)
  | i + 1, c, fl => IncreaseFreeList.loop i (c + 1) (fl ++ [c])

/-- Lines 45-53. The first component is the new value of `current_free_list_maximum`. -/
def IncreaseFreeList (current_free_list_maximum : Nat) (s : GeometryCompressor) :
    Nat × GeometryCompressor :=
  let r := IncreaseFreeList.loop 100 current_free_list_maximum s.m_free_list
  (r.1, { s with
    m_compressed_geometries := s.m_compressed_geometries ++ List.replicate 100 [],
    m_free_list := r.2 })

/-- Lines 39-43: the constructor, run when the global counter has the given value. -/
def ctor (current_free_list_maximum : Nat) : Nat × GeometryCompressor :=
  IncreaseFreeList current_free_list_maximum ⟨[], [], []⟩

/-- Lines 55-58. -/
def HasEntryForID (s : GeometryCompressor) (edge_id : EdgeID) : Bool :=
  (mapFind s.m_edge_id_to_list_index_map edge_id).isSome

/-- Lines 60-67, with both assertions. -/
def GetPositionForID (s : GeometryCompressor) (edge_id : EdgeID) : Except Failure Nat :=
  match mapFind s.m_edge_id_to_list_index_map edge_id with
  | none => .error .assertion
  | some i => if i < s.m_compressed_geometries.length then .ok i else .error .assertion

/-- Lines 239-245: both `at` calls throw `std::out_of_range`. -/
def GetBucketReference (s : GeometryCompressor) (edge_id : EdgeID) :
    Except Failure (List CompressedNode) :=
  match mapFind s.m_edge_id_to_list_index_map edge_id with
  | none => .error .out_of_range
  | some index =>
    match s.m_compressed_geometries[index]? with
    | none => .error .out_of_range
    | some bucket => .ok bucket

/-! ### CompressEdge -/

/-- Lines 140-145: the six assertions on the arguments. -/
def CompressEdge.argumentsValid (edge_id_1 edge_id_2 : EdgeID) (via_node_id target_node_id : NodeID)
    (weight1 weight2 : EdgeWeight) : Bool :=
  decide (SPECIAL_EDGEID ≠ edge_id_1) && decide (SPECIAL_EDGEID ≠ edge_id_2) &&
  decide (SPECIAL_NODEID ≠ via_node_id) && decide (SPECIAL_NODEID ≠ target_node_id) &&
  decide (UINT_MAX ≠ toUnsigned weight1) && decide (UINT_MAX ≠ toUnsigned weight2)

/-- Lines 155-168: give `edge_id_1` a slot when it has none. -/
def CompressEdge.createEntry (g : Nat) (s : GeometryCompressor) (edge_id_1 : EdgeID) :
    Except Failure (Nat × GeometryCompressor) :=
  if HasEntryForID s edge_id_1 then .ok (g, s)
  else
    let r := if s.m_free_list.length = 0 then IncreaseFreeList g s else (g, s)
    match r.2.m_free_list.getLast? with
    | none => .error .assertion
    | some back => .ok (r.1, { r.2 with
        m_edge_id_to_list_index_map := mapInsert r.2.m_edge_id_to_list_index_map edge_id_1 back,
        m_free_list := r.2.m_free_list.dropLast })

/-- Lines 170-182: read the slot of `edge_id_1` (`operator[]` default-inserts 0 for a missing
key), check it, and seed an empty bucket with the via node. Returns the slot and the store. -/
def CompressEdge.addViaNode (s : GeometryCompressor) (edge_id_1 : EdgeID) (via_node_id : NodeID)
    (weight1 : EdgeWeight) : Except Failure (Nat × GeometryCompressor) :=
  let s0 : GeometryCompressor :=
    match mapFind s.m_edge_id_to_list_index_map edge_id_1 with
    | some _ => s
    | none => { s with
        m_edge_id_to_list_index_map := mapInsert s.m_edge_id_to_list_index_map edge_id_1 0 }
  let edge_bucket_id1 := (mapFind s0.m_edge_id_to_list_index_map edge_id_1).getD 0
  match GetPositionForID s0 edge_id_1 with
  | .error e => .error e
  | .ok position =>
    if edge_bucket_id1 ≠ position then .error .assertion
    else if ¬ edge_bucket_id1 < s0.m_compressed_geometries.length then .error .assertion
    else
      let edge_bucket_list1 := s0.m_compressed_geometries.getD edge_bucket_id1 []
      let s1 : GeometryCompressor :=
        if edge_bucket_list1.isEmpty then
          { s0 with m_compressed_geometries :=
              s0.m_compressed_geometries.set edge_bucket_id1 (edge_bucket_list1 ++ [(via_node_id, weight1)]) }
        else s0
      if (s1.m_compressed_geometries.getD edge_bucket_id1 []).isEmpty then .error .assertion
      else .ok (edge_bucket_id1, s1)

/-- Lines 184-211: splice the bucket of `edge_id_2` onto the bucket at `edge_bucket_id1` and
release its slot, or append the target node when `edge_id_2` is atomic. -/
def CompressEdge.appendSecond (s : GeometryCompressor) (edge_bucket_id1 : Nat) (edge_id_2 : EdgeID)
    (target_node_id : NodeID) (weight2 : EdgeWeight) : Except Failure GeometryCompressor :=
  if HasEntryForID s edge_id_2 then
    match GetPositionForID s edge_id_2 with
    | .error e => .error e
    | .ok list_to_remove_index =>
      let edge_bucket_list1 := s.m_compressed_geometries.getD edge_bucket_id1 []
      let edge_bucket_list2 := s.m_compressed_geometries.getD list_to_remove_index []
      let inserted := s.m_compressed_geometries.set edge_bucket_id1 (edge_bucket_list1 ++ edge_bucket_list2)
      .ok { m_compressed_geometries := inserted.set list_to_remove_index [],
            m_edge_id_to_list_index_map := mapErase s.m_edge_id_to_list_index_map edge_id_2,
            m_free_list := s.m_free_list ++ [list_to_remove_index] }
  else
    let edge_bucket_list1 := s.m_compressed_geometries.getD edge_bucket_id1 []
    .ok { s with m_compressed_geometries :=
            s.m_compressed_geometries.set edge_bucket_id1 (edge_bucket_list1 ++ [(target_node_id, weight2)]) }

/-- Lines 130-212. The first component of the result is the global counter after the call. -/
def CompressEdge (g : Nat) (s : GeometryCompressor) (edge_id_1 edge_id_2 : EdgeID)
    (via_node_id target_node_id : NodeID) (weight1 weight2 : EdgeWeight) :
    Except Failure (Nat × GeometryCompressor) :=
  if CompressEdge.argumentsValid edge_id_1 edge_id_2 via_node_id target_node_id weight1 weight2 then
    match CompressEdge.createEntry g s edge_id_1 with
    | .error e => .error e
    | .ok r1 =>
      match CompressEdge.addViaNode r1.2 edge_id_1 via_node_id weight1 with
      | .error e => .error e
      | .ok r2 =>
        match CompressEdge.appendSecond r2.2 r2.1 edge_id_2 target_node_id weight2 with
        | .error e => .error e
        | .ok s3 => .ok (r1.1, s3)
  else .error .assertion

/-! ### SerializeInternalVector -/

/-- Lines 83-95: the first loop. From the running sum it returns the words written and the
final sum; the sum is an `unsigned`, as is `unpacked_size`. -/
def SerializeInternalVector.writeIndices :
    List (List CompressedNode) → Nat → Except Failure (List Nat × Nat)
  | [], prefix_sum_of_list_indices => .ok ([], prefix_sum_of_list_indices)
  | current_vector :: rest, prefix_sum_of_list_indices =>
    let unpacked_size := current_vector.length % 4294967296
    if UINT_MAX = unpacked_size then .error .assertion
    else
      match SerializeInternalVector.writeIndices rest
          ((prefix_sum_of_list_indices + unpacked_size) % 4294967296) with
      | .error e => .error e
      | .ok r => .ok (prefix_sum_of_list_indices :: r.1, r.2)

/-- Lines 109-124: the second loop. From the running control sum it returns the node ids
written and the final control sum. -/
def SerializeInternalVector.writeGeometries :
    List (List CompressedNode) → Nat → Except Failure (List Nat × Nat)
  | [], control_sum => .ok ([], control_sum)
  | current_vector :: rest, control_sum =>
    let unpacked_size := current_vector.length % 4294967296
    if UINT_MAX = unpacked_size then .error .assertion
    else
      match SerializeInternalVector.writeGeometries rest
          ((control_sum + unpacked_size) % 4294967296) with
      | .error e => .error e
      | .ok r => .ok (current_vector.map (fun current_node => current_node.1) ++ r.1, r.2)

/-- Lines 69-128: the sequence of 32-bit words written to the stream. The loop counters are
`unsigned` and compared with a `size_t`, so with `2^32` slots or more the loops never end. -/
def SerializeInternalVector (s : GeometryCompressor) : Except Failure (List Nat) :=
  let number_of_compressed_geometries := (s.m_compressed_geometries.length + 1) % 4294967296
  if UINT_MAX = number_of_compressed_geometries then .error .assertion
  else if 4294967296 ≤ s.m_compressed_geometries.length then .error .diverges
  else
    match SerializeInternalVector.writeIndices s.m_compressed_geometries 0 with
    | .error e => .error e
    | .ok indices =>
      match SerializeInternalVector.writeGeometries s.m_compressed_geometries 0 with
      | .error e => .error e
      | .ok geometries =>
        if geometries.2 = indices.2 then
          .ok ([number_of_compressed_geometries] ++ indices.1 ++ [indices.2] ++ [indices.2]
                ++ geometries.1)
        else .error .assertion

end GeometryCompressor

open GeometryCompressor

/-! ### PrintStatistics -/

/-- The numbers `PrintStatistics` writes to the log. The two ratios are floating-point
quotients in the source; the record keeps their integer operands. -/
structure Statistics where
  compressed_edges : Nat
  number_of_compressed_geometries : Nat
  longest_chain_length : Nat
  ratio_denominator : Nat
  average_denominator : Nat
  bytes : Nat
deriving DecidableEq, Repr

/-- Lines 222-226: the loop over all slots, from the pair `(number_of_compressed_geometries,
longest_chain_length)`. The first is an `unsigned`, the second an `unsigned long`. -/
def GeometryCompressor.PrintStatistics.loop :
    List (List CompressedNode) → Nat × Nat → Nat × Nat
  | [], r => r
  | current_vector :: rest, r =>
    GeometryCompressor.PrintStatistics.loop rest
      ((r.1 + current_vector.length) % 4294967296, max r.2 current_vector.length)

/-- Lines 214-237. The store is not an output: the member function is `const`. -/
def GeometryCompressor.PrintStatistics (s : GeometryCompressor) : Except Failure Statistics :=
  let compressed_edges := s.m_compressed_geometries.length % 4294967296
  if ¬ (s.m_compressed_geometries.length + s.m_free_list.length > 0) then .error .assertion
  else
    let r := GeometryCompressor.PrintStatistics.loop s.m_compressed_geometries (0, 0)
    if 0 ≠ compressed_edges % 2 then .error .assertion
    else .ok
      { compressed_edges := compressed_edges
        number_of_compressed_geometries := r.1
        longest_chain_length := r.2
        ratio_denominator := max r.1 1
        average_denominator := max 1 compressed_edges
        bytes := (4 * compressed_edges + r.1 * 4 + 8) % 4294967296 }


/-! ## Invariants, reachability and the stream layout -/

/-- Allocator consistency of a store together with the global counter: the counter equals the
number of slots, indexed and free slots are in range, the free list has no duplicates and is
disjoint from the indexed slots, the index is injective, and free slots hold empty buckets. -/
structure Core (g : Nat) (s : GeometryCompressor) : Prop where
  counter : g = s.m_compressed_geometries.length
  live_lt : ∀ e k, mapFind s.m_edge_id_to_list_index_map e = some k →
    k < s.m_compressed_geometries.length
  free_lt : ∀ k ∈ s.m_free_list, k < s.m_compressed_geometries.length
  free_nodup : s.m_free_list.Nodup
  live_not_free : ∀ e k, mapFind s.m_edge_id_to_list_index_map e = some k → k ∉ s.m_free_list
  live_inj : ∀ e e' k, mapFind s.m_edge_id_to_list_index_map e = some k →
    mapFind s.m_edge_id_to_list_index_map e' = some k → e = e'
  free_empty : ∀ k ∈ s.m_free_list, s.m_compressed_geometries.getD k [] = []

/-- The invariant of reachable states: allocator consistency, and every indexed bucket holds at
least two nodes. -/
structure Inv (g : Nat) (s : GeometryCompressor) : Prop where
  core : Core g s
  live_two : ∀ e k, mapFind s.m_edge_id_to_list_index_map e = some k →
    2 ≤ (s.m_compressed_geometries.getD k []).length

/-- The arguments of one `CompressEdge` call. -/
structure Call where
  edge_id_1 : EdgeID
  edge_id_2 : EdgeID
  via_node_id : NodeID
  target_node_id : NodeID
  weight1 : EdgeWeight
  weight2 : EdgeWeight
deriving DecidableEq, Repr

/-- Run a sequence of `CompressEdge` calls, stopping at the first failure. -/
def runCalls : Nat × GeometryCompressor → List Call → Except Failure (Nat × GeometryCompressor)
  | p, [] => .ok p
  | p, c :: rest =>
    match CompressEdge p.1 p.2 c.edge_id_1 c.edge_id_2 c.via_node_id c.target_node_id
        c.weight1 c.weight2 with
    | .error e => .error e
    | .ok p' => runCalls p' rest

/-- States reachable from a freshly constructed store (built when the global counter still has
its initial value 0) by `CompressEdge` calls that return. -/
inductive Reachable : Nat → GeometryCompressor → Prop where
  | fresh : Reachable (ctor 0).1 (ctor 0).2
  | step {g : Nat} {s : GeometryCompressor} (c : Call) {g' : Nat} {s' : GeometryCompressor} :
      Reachable g s →
      CompressEdge g s c.edge_id_1 c.edge_id_2 c.via_node_id c.target_node_id c.weight1 c.weight2
        = .ok (g', s') →
      Reachable g' s'

/-- The chain that `edge_id_1` contributes to a call: its old bucket when it had a non-empty
one, otherwise the via pair alone. -/
def CompressEdge.firstPart (s : GeometryCompressor) (edge_id_1 : EdgeID) (via_node_id : NodeID)
    (weight1 : EdgeWeight) : List CompressedNode :=
  match GetBucketReference s edge_id_1 with
  | .ok bucket => if bucket = [] then [(via_node_id, weight1)] else bucket
  | .error _ => [(via_node_id, weight1)]

/-- The chain that `edge_id_2` contributes to a call: its old bucket when it had one, otherwise
the target pair alone. -/
def CompressEdge.secondPart (s : GeometryCompressor) (edge_id_2 : EdgeID)
    (target_node_id : NodeID) (weight2 : EdgeWeight) : List CompressedNode :=
  match GetBucketReference s edge_id_2 with
  | .ok bucket => bucket
  | .error _ => [(target_node_id, weight2)]

/-- The node-id projection of a bucket (weights dropped). -/
def nodeIds (bucket : List CompressedNode) : List NodeID :=
  bucket.map (fun current_node => current_node.1)

/-- The number of `CompressedNode` entries summed over all slots. -/
def totalNodeCount (s : GeometryCompressor) : Nat :=
  (s.m_compressed_geometries.map List.length).sum

/-- The CSR offsets as the spec words them: entry `i` is the running total of the node counts
of buckets `0 .. i-1`, for `i` from 0 up to and including the number of buckets. -/
def specOffsets (buckets : List (List CompressedNode)) : List Nat :=
  (List.range (buckets.length + 1)).map (fun i => ((buckets.take i).map List.length).sum)

/-- The stream layout as the spec words it: the offset count, the offsets, the total node
count, and the node ids of every bucket in slot order. -/
def specStream (s : GeometryCompressor) : List Nat :=
  [s.m_compressed_geometries.length + 1] ++ specOffsets s.m_compressed_geometries
    ++ [totalNodeCount s] ++ (s.m_compressed_geometries.map nodeIds).flatten

/-- A stream read back as the four fields of the layout. -/
structure Decoded where
  offsetCount : Nat
  offsets : List Nat
  totalNodeCount : Nat
  nodeIds : List Nat
deriving DecidableEq, Repr

/-- The reader side of the layout, as the spec words it: read a word stream as
`(offsetCount, offsets, totalNodeCount, nodeIds)`; it fails when the stream is shorter or longer
than its two count fields announce. -/
def decodeStream : List Nat → Option Decoded
  | [] => none
  | offsetCount :: rest =>
    match rest.drop offsetCount with
    | [] => none
    | total :: nodes =>
      if (rest.take offsetCount).length = offsetCount ∧ nodes.length = total then
        some ⟨offsetCount, rest.take offsetCount, total, nodes⟩
      else none

/-- The node range of bucket `k` in a decoded stream: `nodeIds[offsets[k] .. offsets[k+1])`. -/
def Decoded.range (d : Decoded) (k : Nat) : List Nat :=
  (d.nodeIds.drop (d.offsets.getD k 0)).take (d.offsets.getD (k + 1) 0 - d.offsets.getD k 0)

/-! ## Example states -/

/-- The store after `CompressEdge(10, 20, 5, 6, 3, 4)` on a freshly constructed store. -/
def specExampleFirst : GeometryCompressor :=
  ⟨List.replicate 99 [] ++ [[(5, 3), (6, 4)]], List.range 99, [(10, 99)]⟩

/-- The store after `CompressEdge(30, 10, 7, 8, 1, 2)` on `specExampleFirst`. -/
def specExampleSecond : GeometryCompressor :=
  ⟨List.replicate 98 [] ++ [[(7, 1), (5, 3), (6, 4)], []], List.range 98 ++ [99], [(30, 98)]⟩

/-- The store after `CompressEdge(40, 50, 9, 10, 1, 1)` on `specExampleSecond`: edge 40 is
given slot 99, which edge 10 released. -/
def specExampleThird : GeometryCompressor :=
  ⟨List.replicate 98 [] ++ [[(7, 1), (5, 3), (6, 4)], [(9, 1), (10, 1)]], List.range 98,
    [(40, 99), (30, 98)]⟩

/-- A store with two chains: after `CompressEdge(1, 2, 11, 12, 1, 2)` and
`CompressEdge(3, 4, 13, 14, 3, 4)` on a freshly constructed store. -/
def twoChains : GeometryCompressor :=
  ⟨List.replicate 98 [] ++ [[(13, 3), (14, 4)], [(11, 1), (12, 2)]], List.range 98,
    [(3, 98), (1, 99)]⟩

/-- A store of the literal shape of the splice example: edge 1 holds one node, edge 2 two. -/
def singleNodeStore : GeometryCompressor :=
  ⟨[[(21, 1)], [(22, 2), (23, 3)]], [], [(1, 0), (2, 1)]⟩

/-- The store in which edge 0 holds a chain of `n` nodes in slot 99 and nothing else is
indexed: the state after `n - 1` calls `CompressEdge(0, 1, 0, 0, 0, 0)`. -/
def chainState (n : Nat) : GeometryCompressor :=
  ⟨List.replicate 99 [] ++ [List.replicate n (0, 0)], List.range 99, [(0, 99)]⟩

/-- A store of `n` empty slots with an empty index. -/
def emptySlots (n : Nat) : GeometryCompressor :=
  ⟨List.replicate n [], [], []⟩

/-- The number of live buckets: the number of edge ids in the edge index. -/
def liveBucketCount (s : GeometryCompressor) : Nat :=
  s.m_edge_id_to_list_index_map.length

/-- The hundred calls `CompressEdge(i, 1000, 7, 8, 1, 2)` for `i = 0 .. 99`. -/
def fillingCalls : List Call :=
  (List.range 100).map (fun i => ⟨i, 1000, 7, 8, 1, 2⟩)

/-- The store after `fillingCalls` on a freshly constructed store: every slot is indexed and
the free list is empty. -/
def fullStore : GeometryCompressor :=
  ⟨List.replicate 100 [(7, 1), (8, 2)], [], (List.range 100).map (fun j => (99 - j, j))⟩

/-- The store `specExampleSecond` with other weights in its bucket. -/
def specExampleReweighted : GeometryCompressor :=
  ⟨List.replicate 98 [] ++ [[(7, 40), (5, 50), (6, 60)], []], List.range 98 ++ [99],
    [(30, 98)]⟩

/-! ## Lemmas -/

theorem mapFind_mapErase (m : List (EdgeID × Nat)) (e e' : EdgeID) :
    mapFind (mapErase m e) e' = if e' = e then none else mapFind m e' := by
  induction m with
  | nil => simp [mapErase, mapFind]
  | cons p rest ih =>
    obtain ⟨k, v⟩ := p
    unfold mapErase at ih ⊢
    by_cases hk : k = e
    · subst hk
      simp only [List.filter, ne_eq, not_true_eq_false, decide_False]
      rw [ih]
      by_cases h : e' = k
      · simp [h]
      · have : ¬ k = e' := fun h' => h h'.symm
        simp [h, mapFind, this]
    · simp only [List.filter, ne_eq, hk, not_false_eq_true, decide_True, mapFind]
      rw [ih]
      by_cases h : k = e'
      · subst h; simp [hk]
      · simp [h]

theorem mapFind_mapInsert (m : List (EdgeID × Nat)) (e e' : EdgeID) (v : Nat) :
    mapFind (mapInsert m e v) e' = if e' = e then some v else mapFind m e' := by
  unfold mapInsert
  simp only [mapFind, mapFind_mapErase]
  by_cases h : e = e'
  · subst h; simp
  · have : ¬ e' = e := fun h' => h h'.symm
    simp [h, this]

theorem IncreaseFreeList.loop_eq (i c : Nat) (fl : List Nat) :
    IncreaseFreeList.loop i c fl = (c + i, fl ++ List.range' c i) := by
  induction i generalizing c fl with
  | zero => simp [IncreaseFreeList.loop]
  | succ n ih =>
    simp only [IncreaseFreeList.loop, ih, List.range'_succ, List.append_assoc, List.singleton_append]
    congr 1
    omega

theorem getD_set_self {α : Type} (l : List α) (k : Nat) (x d : α) (h : k < l.length) :
    (l.set k x).getD k d = x := by
  simp [List.getD_eq_getElem?_getD, List.getElem?_set, h]

theorem getD_set_of_ne {α : Type} (l : List α) (k j : Nat) (x d : α) (h : k ≠ j) :
    (l.set k x).getD j d = l.getD j d := by
  simp [List.getD_eq_getElem?_getD, List.getElem?_set, h]

theorem getD_append_replicate (l : List (List CompressedNode)) (n k : Nat) :
    (l ++ List.replicate n []).getD k [] = l.getD k [] := by
  simp only [List.getD_eq_getElem?_getD]
  by_cases h : k < l.length
  · rw [List.getElem?_append_left h]
  · rw [List.getElem?_append_right (by omega)]
    have : l[k]? = none := List.getElem?_eq_none (by omega)
    rw [this]
    by_cases h2 : k - l.length < n
    · simp [List.getElem?_replicate, h2]
    · simp [List.getElem?_replicate, h2]

/-- The store after `pop_back` of the free list and registration of the popped slot. -/
theorem Core.pop {g : Nat} {B : List (List CompressedNode)} {F0 : List Nat} {b : Nat}
    {M : List (EdgeID × Nat)} (h : Core g ⟨B, F0 ++ [b], M⟩) (e1 : EdgeID) : Core g ⟨B, F0, mapInsert M e1 b⟩ := by
  obtain ⟨hc, hl, hf, hnd, hlf, hinj, hfe⟩ := h
  simp only at hc hl hf hnd hlf hinj hfe
  have hb : b ∈ F0 ++ [b] := by simp
  have hbF0 : b ∉ F0 := by
    intro hin
    have := List.nodup_append.mp hnd
    exact this.2.2 hin (by simp)
  refine ⟨hc, ?_, ?_, ?_, ?_, ?_, ?_⟩
  · intro e k hk
    simp only [mapFind_mapInsert] at hk
    split at hk
    · cases hk; exact hf b hb
    · exact hl e k hk
  · intro k hk; exact hf k (by simp [hk])
  · exact (List.nodup_append.mp hnd).1
  · intro e k hk
    simp only [mapFind_mapInsert] at hk
    split at hk
    · cases hk; exact hbF0
    · intro hin; exact hlf e k hk (by simp [hin])
  · intro e e' k hk hk'
    simp only [mapFind_mapInsert] at hk hk'
    split at hk <;> split at hk'
    · simp_all
    · cases hk; exact absurd hb (hlf e' b hk')
    · cases hk'; exact absurd hb (hlf e b hk)
    · exact hinj e e' k hk hk'
  · intro k hk; exact hfe k (by simp [hk])

/-- Overwriting the bucket of an indexed slot keeps the allocator consistent. -/
theorem Core.setLive {g : Nat} {s : GeometryCompressor} (h : Core g s) {e : EdgeID} {k : Nat}
    (hk : mapFind s.m_edge_id_to_list_index_map e = some k) (x : List CompressedNode) :
    Core g { s with m_compressed_geometries := s.m_compressed_geometries.set k x } := by
  obtain ⟨hc, hl, hf, hnd, hlf, hinj, hfe⟩ := h
  refine ⟨by simpa using hc, ?_, ?_, hnd, hlf, hinj, ?_⟩
  · intro e' k' hk'; simpa using hl e' k' hk'
  · intro k' hk'; simpa using hf k' hk'
  · intro k' hk'
    have hne : k ≠ k' := by
      intro heq; subst heq; exact hlf e k hk hk'
    simp only
    rw [getD_set_of_ne _ _ _ _ _ hne]
    exact hfe k' hk'

/-- Erasing an indexed edge, clearing its bucket and pushing its slot on the free list keeps
the allocator consistent. -/
theorem Core.release {g : Nat} {s : GeometryCompressor} (h : Core g s) {e2 : EdgeID} {k2 : Nat}
    (hk : mapFind s.m_edge_id_to_list_index_map e2 = some k2) :
    Core g ⟨s.m_compressed_geometries.set k2 [], s.m_free_list ++ [k2],
      mapErase s.m_edge_id_to_list_index_map e2⟩ := by
  obtain ⟨hc, hl, hf, hnd, hlf, hinj, hfe⟩ := h
  have hk2 : k2 < s.m_compressed_geometries.length := hl e2 k2 hk
  refine ⟨by simpa using hc, ?_, ?_, ?_, ?_, ?_, ?_⟩
  · intro e k hek
    simp only [mapFind_mapErase] at hek
    split at hek
    · cases hek
    · simpa using hl e k hek
  · intro k hin
    simp only [List.mem_append, List.mem_singleton] at hin
    rcases hin with hin | rfl
    · simpa using hf k hin
    · simpa using hk2
  · simp only
    rw [List.nodup_append]
    refine ⟨hnd, by simp, ?_⟩
    intro a ha hb
    simp only [List.mem_singleton] at hb
    subst hb
    exact hlf e2 a hk ha
  · intro e k hek
    simp only [mapFind_mapErase] at hek
    split at hek
    · cases hek
    · rename_i hne
      simp only [List.mem_append, List.mem_singleton, not_or]
      refine ⟨hlf e k hek, ?_⟩
      intro heq; subst heq
      exact hne (hinj e e2 k hek hk)
  · intro e e' k hek hek'
    simp only [mapFind_mapErase] at hek hek'
    split at hek
    · cases hek
    · split at hek'
      · cases hek'
      · exact hinj e e' k hek hek'
  · intro k hin
    simp only [List.mem_append, List.mem_singleton] at hin
    simp only
    rcases hin with hin | rfl
    · have hne : k2 ≠ k := by
        intro heq; subst heq; exact hlf e2 k2 hk hin
      rw [getD_set_of_ne _ _ _ _ _ hne]
      exact hfe k hin
    · exact getD_set_self _ _ _ _ hk2

/-- Growth keeps the allocator consistent. -/
theorem Core.grow {g : Nat} {s : GeometryCompressor} (h : Core g s) :
    Core (IncreaseFreeList g s).1 (IncreaseFreeList g s).2 := by
  obtain ⟨hc, hl, hf, hnd, hlf, hinj, hfe⟩ := h
  simp only [IncreaseFreeList, IncreaseFreeList.loop_eq]
  refine ⟨by simp [hc], ?_, ?_, ?_, ?_, hinj, ?_⟩
  · intro e k hek
    have := hl e k hek
    simp only [List.length_append, List.length_replicate]; omega
  · intro k hin
    simp only [List.mem_append, List.mem_range'_1] at hin
    simp only [List.length_append, List.length_replicate]
    rcases hin with hin | hin
    · have := hf k hin; omega
    · omega
  · simp only
    rw [List.nodup_append]
    refine ⟨hnd, List.nodup_range' _ _, ?_⟩
    intro a ha hb
    simp only [List.mem_range'_1] at hb
    have := hf a ha
    omega
  · intro e k hek hin
    simp only [List.mem_append, List.mem_range'_1] at hin
    rcases hin with hin | hin
    · exact hlf e k hek hin
    · have := hl e k hek
      omega
  · intro k hin
    simp only [List.mem_append, List.mem_range'_1] at hin
    simp only
    rw [getD_append_replicate]
    rcases hin with hin | hin
    · exact hfe k hin
    · simp only [List.getD_eq_getElem?_getD]
      rw [List.getElem?_eq_none (by omega)]
      rfl

theorem Core.of_ctor : Core (ctor 0).1 (ctor 0).2 := by
  have h0 : Core 0 ⟨[], [], []⟩ := by
    refine ⟨rfl, ?_, ?_, ?_, ?_, ?_, ?_⟩ <;> simp [mapFind]
  exact h0.grow

theorem createEntry_live {g : Nat} {s : GeometryCompressor} {e1 : EdgeID} {k : Nat}
    (h : mapFind s.m_edge_id_to_list_index_map e1 = some k) :
    CompressEdge.createEntry g s e1 = .ok (g, s) := by
  simp [CompressEdge.createEntry, HasEntryForID, h]

theorem createEntry_new {g : Nat} {s : GeometryCompressor} {e1 : EdgeID}
    (h : mapFind s.m_edge_id_to_list_index_map e1 = none) :
    ∃ g1 B1 F0 b, CompressEdge.createEntry g s e1
        = .ok (g1, ⟨B1, F0, mapInsert s.m_edge_id_to_list_index_map e1 b⟩) ∧
      (Core g s → Core g1 ⟨B1, F0 ++ [b], s.m_edge_id_to_list_index_map⟩) ∧
      (∀ k, B1.getD k [] = s.m_compressed_geometries.getD k []) ∧
      s.m_compressed_geometries.length ≤ B1.length := by
  by_cases hF : s.m_free_list.length = 0
  · -- growth
    have hnil : s.m_free_list = [] := List.length_eq_zero.mp hF
    have hfl : (IncreaseFreeList g s).2.m_free_list = List.range' g 99 ++ [g + 99] := by
      simp only [IncreaseFreeList, IncreaseFreeList.loop_eq, hnil, List.nil_append]
      rw [show (100 : Nat) = 99 + 1 from rfl, List.range'_concat]
    refine ⟨(IncreaseFreeList g s).1, (IncreaseFreeList g s).2.m_compressed_geometries,
      List.range' g 99, g + 99, ?_, ?_, ?_, ?_⟩
    · simp only [CompressEdge.createEntry, HasEntryForID, h, hF, if_true, hfl]
      simp [IncreaseFreeList]
    · intro hc
      have := hc.grow
      rw [← hfl]
      exact this
    · intro k
      simp only [IncreaseFreeList]
      exact getD_append_replicate _ _ _
    · simp [IncreaseFreeList]
  · have hne : s.m_free_list ≠ [] := fun hh => hF (by simp [hh])
    refine ⟨g, s.m_compressed_geometries, s.m_free_list.dropLast, s.m_free_list.getLast hne,
      ?_, ?_, ?_, ?_⟩
    · simp only [CompressEdge.createEntry, HasEntryForID, h, hF, if_false]
      rw [List.getLast?_eq_getLast _ hne]
      simp
    · intro hc
      rw [List.dropLast_append_getLast hne]
      exact hc
    · intro k; rfl
    · exact le_refl _

theorem set_getD_self {α : Type} (l : List α) (k : Nat) (d : α) (h : k < l.length) :
    l.set k (l.getD k d) = l := by
  apply List.ext_getElem?
  intro j
  simp only [List.getElem?_set, List.getD_eq_getElem?_getD]
  by_cases hj : k = j
  · subst hj
    simp [h, List.getElem?_eq_getElem h]
  · simp [hj]

theorem addViaNode_eq {s : GeometryCompressor} {e1 : EdgeID} {k : Nat}
    (h : mapFind s.m_edge_id_to_list_index_map e1 = some k)
    (hk : k < s.m_compressed_geometries.length) (v : NodeID) (w1 : EdgeWeight) :
    CompressEdge.addViaNode s e1 v w1 = .ok (k,
      ⟨s.m_compressed_geometries.set k
        (if s.m_compressed_geometries.getD k [] = [] then [(v, w1)]
         else s.m_compressed_geometries.getD k []),
       s.m_free_list, s.m_edge_id_to_list_index_map⟩) := by
  have hg : s.m_compressed_geometries.getD k [] = s.m_compressed_geometries[k] := by
    simp [List.getD_eq_getElem?_getD, List.getElem?_eq_getElem hk]
  by_cases hB : s.m_compressed_geometries.getD k [] = []
  · have hB' : s.m_compressed_geometries[k] = [] := hg ▸ hB
    simp [CompressEdge.addViaNode, h, GetPositionForID, hk, hB']
  · have hB' : ¬ s.m_compressed_geometries[k] = [] := hg ▸ hB
    simp only [hB, if_false, set_getD_self _ _ _ hk]
    simp [CompressEdge.addViaNode, h, GetPositionForID, hk, hB']

theorem appendSecond_live {s : GeometryCompressor} {e2 : EdgeID} {k2 : Nat}
    (h : mapFind s.m_edge_id_to_list_index_map e2 = some k2)
    (hk : k2 < s.m_compressed_geometries.length) (k : Nat) (t : NodeID) (w2 : EdgeWeight) :
    CompressEdge.appendSecond s k e2 t w2 = .ok
      ⟨(s.m_compressed_geometries.set k
          (s.m_compressed_geometries.getD k [] ++ s.m_compressed_geometries.getD k2 [])).set k2 [],
        s.m_free_list ++ [k2], mapErase s.m_edge_id_to_list_index_map e2⟩ := by
  simp [CompressEdge.appendSecond, HasEntryForID, h, GetPositionForID, hk]

theorem appendSecond_atomic {s : GeometryCompressor} {e2 : EdgeID}
    (h : mapFind s.m_edge_id_to_list_index_map e2 = none) (k : Nat) (t : NodeID)
    (w2 : EdgeWeight) :
    CompressEdge.appendSecond s k e2 t w2 = .ok
      ⟨s.m_compressed_geometries.set k (s.m_compressed_geometries.getD k [] ++ [(t, w2)]),
        s.m_free_list, s.m_edge_id_to_list_index_map⟩ := by
  simp [CompressEdge.appendSecond, HasEntryForID, h]

/-- Lines 170-211 on a store in which `e1` is indexed: both stages return, the invariant holds
afterwards, and the index and the buckets change only at `e1` and `e2`. -/
theorem CompressEdge.finish {g1 : Nat} {s1 : GeometryCompressor} {e1 : EdgeID} {k1 : Nat}
    (hc : Core g1 s1) (h1 : mapFind s1.m_edge_id_to_list_index_map e1 = some k1)
    (htwo : ∀ e k, e ≠ e1 → mapFind s1.m_edge_id_to_list_index_map e = some k →
      2 ≤ (s1.m_compressed_geometries.getD k []).length)
    (e2 : EdgeID) (v t : NodeID) (w1 w2 : EdgeWeight) :
    ∃ s2 s3, CompressEdge.addViaNode s1 e1 v w1 = .ok (k1, s2) ∧
      CompressEdge.appendSecond s2 k1 e2 t w2 = .ok s3 ∧
      Inv g1 s3 ∧
      mapFind s3.m_edge_id_to_list_index_map e2 = none ∧
      (∀ e, e ≠ e2 → mapFind s3.m_edge_id_to_list_index_map e
        = mapFind s1.m_edge_id_to_list_index_map e) ∧
      (∀ k, k ≠ k1 → mapFind s1.m_edge_id_to_list_index_map e2 ≠ some k →
        s3.m_compressed_geometries.getD k [] = s1.m_compressed_geometries.getD k []) ∧
      (e1 ≠ e2 → s3.m_compressed_geometries.getD k1 [] =
        (if s1.m_compressed_geometries.getD k1 [] = [] then [(v, w1)]
         else s1.m_compressed_geometries.getD k1 []) ++
        (match mapFind s1.m_edge_id_to_list_index_map e2 with
         | some k2 => s1.m_compressed_geometries.getD k2 []
         | none => [(t, w2)])) ∧
      s3.m_compressed_geometries.length = s1.m_compressed_geometries.length := by
  have hk1 : k1 < s1.m_compressed_geometries.length := hc.live_lt e1 k1 h1
  generalize hH : (if s1.m_compressed_geometries.getD k1 [] = [] then [(v, w1)]
         else s1.m_compressed_geometries.getD k1 []) = H
  have hHlen : 1 ≤ H.length := by
    rw [← hH]
    split
    · simp
    · rename_i hne
      exact List.length_pos.mpr hne
  have hadd := addViaNode_eq h1 hk1 v w1
  rw [hH] at hadd
  have hc2 : Core g1 ⟨s1.m_compressed_geometries.set k1 H, s1.m_free_list,
      s1.m_edge_id_to_list_index_map⟩ := hc.setLive h1 H
  have hk1' : k1 < (s1.m_compressed_geometries.set k1 H).length := by simpa using hk1
  have hget2 : (s1.m_compressed_geometries.set k1 H).getD k1 [] = H :=
    getD_set_self _ _ _ _ hk1
  cases he2 : mapFind s1.m_edge_id_to_list_index_map e2 with
  | none =>
    have happ := appendSecond_atomic (s := ⟨s1.m_compressed_geometries.set k1 H, s1.m_free_list,
      s1.m_edge_id_to_list_index_map⟩) he2 k1 t w2
    simp only [hget2, List.set_set] at happ
    refine ⟨_, _, hadd, happ, ?_, he2, ?_, ?_, ?_, ?_⟩
    · refine ⟨hc.setLive h1 _, ?_⟩
      intro e k hek
      simp only at hek ⊢
      by_cases hkk : k = k1
      · subst hkk
        rw [getD_set_self _ _ _ _ hk1]
        simp only [List.length_append, List.length_singleton]
        omega
      · rw [getD_set_of_ne _ _ _ _ _ (Ne.symm hkk)]
        refine htwo e k ?_ hek
        intro hee; subst hee
        rw [h1] at hek
        exact hkk (Option.some.inj hek).symm
    · intro e _; rfl
    · intro k hk _
      simp only
      rw [getD_set_of_ne _ _ _ _ _ (Ne.symm hk)]
    · intro _
      simp only
      rw [getD_set_self _ _ _ _ hk1]
    · simp
  | some k2 =>
    have hk2 : k2 < s1.m_compressed_geometries.length := hc.live_lt e2 k2 he2
    have hk2' : k2 < (s1.m_compressed_geometries.set k1 H).length := by simpa using hk2
    have happ := appendSecond_live (s := ⟨s1.m_compressed_geometries.set k1 H, s1.m_free_list,
      s1.m_edge_id_to_list_index_map⟩) he2 hk2' k1 t w2
    simp only [hget2, List.set_set] at happ
    have hc3 := (hc.setLive h1
      (H ++ (s1.m_compressed_geometries.set k1 H).getD k2 [])).release he2
    refine ⟨_, _, hadd, happ, ⟨hc3, ?_⟩, ?_, ?_, ?_, ?_, ?_⟩
    · intro e k hek
      simp only [mapFind_mapErase] at hek
      simp only
      split at hek
      · cases hek
      · rename_i hne
        have hkk2 : k2 ≠ k := by
          intro heq; subst heq
          exact hne (hc.live_inj e e2 k2 hek he2)
        rw [getD_set_of_ne _ _ _ _ _ hkk2]
        by_cases hkk : k = k1
        · subst hkk
          have hee : e = e1 := hc.live_inj e e1 k hek h1
          subst hee
          rw [getD_set_self _ _ _ _ hk1, getD_set_of_ne _ _ _ _ _ (Ne.symm hkk2)]
          have := htwo e2 k2 (fun h => hne h.symm) he2
          simp only [List.length_append]
          omega
        · rw [getD_set_of_ne _ _ _ _ _ (Ne.symm hkk)]
          refine htwo e k ?_ hek
          intro hee; subst hee
          rw [h1] at hek
          exact hkk (Option.some.inj hek).symm
    · simp [mapFind_mapErase]
    · intro e hne
      simp [mapFind_mapErase, hne]
    · intro k hk hk2n
      have hkk2 : k2 ≠ k := fun h => hk2n (by rw [h])
      simp only
      rw [getD_set_of_ne _ _ _ _ _ hkk2, getD_set_of_ne _ _ _ _ _ (Ne.symm hk)]
    · intro hne
      have hkk : k2 ≠ k1 := by
        intro heq; subst heq
        exact hne (hc.live_inj e1 e2 k2 h1 he2)
      simp only
      rw [getD_set_of_ne _ _ _ _ _ hkk, getD_set_self _ _ _ _ hk1,
        getD_set_of_ne _ _ _ _ _ (Ne.symm hkk)]
    · simp

theorem GetBucketReference_eq {s : GeometryCompressor} {e : EdgeID} {k : Nat}
    (h : mapFind s.m_edge_id_to_list_index_map e = some k)
    (hk : k < s.m_compressed_geometries.length) :
    GetBucketReference s e = .ok (s.m_compressed_geometries.getD k []) := by
  simp [GetBucketReference, h, List.getElem?_eq_getElem hk, List.getD_eq_getElem?_getD]

theorem GetBucketReference_none {s : GeometryCompressor} {e : EdgeID}
    (h : mapFind s.m_edge_id_to_list_index_map e = none) :
    GetBucketReference s e = .error .out_of_range := by
  simp [GetBucketReference, h]

/-- One `CompressEdge` call on a state satisfying the invariant. -/
theorem CompressEdge.step_spec {g : Nat} {s : GeometryCompressor} (hI : Inv g s)
    (e1 e2 : EdgeID) (v t : NodeID) (w1 w2 : EdgeWeight)
    (hv : CompressEdge.argumentsValid e1 e2 v t w1 w2 = true) :
    ∃ g' s', CompressEdge g s e1 e2 v t w1 w2 = .ok (g', s') ∧ Inv g' s' ∧
      mapFind s'.m_edge_id_to_list_index_map e2 = none ∧
      (∀ e, e ≠ e1 → e ≠ e2 → mapFind s'.m_edge_id_to_list_index_map e
        = mapFind s.m_edge_id_to_list_index_map e) ∧
      (∀ e k, e ≠ e1 → e ≠ e2 → mapFind s.m_edge_id_to_list_index_map e = some k →
        s'.m_compressed_geometries.getD k [] = s.m_compressed_geometries.getD k []) ∧
      (e1 ≠ e2 → ∃ k1, mapFind s'.m_edge_id_to_list_index_map e1 = some k1 ∧
        (mapFind s.m_edge_id_to_list_index_map e1 = none ∨
          mapFind s.m_edge_id_to_list_index_map e1 = some k1) ∧
        s'.m_compressed_geometries.getD k1 [] =
          CompressEdge.firstPart s e1 v w1 ++ CompressEdge.secondPart s e2 t w2) ∧
      s.m_compressed_geometries.length ≤ s'.m_compressed_geometries.length := by
  have hc := hI.core
  -- the tail contributed by e2, read through the index
  have hsecond : ∀ (B1 : List (List CompressedNode)),
      (∀ k, B1.getD k [] = s.m_compressed_geometries.getD k []) →
      (match mapFind s.m_edge_id_to_list_index_map e2 with
        | some k2 => B1.getD k2 []
        | none => [(t, w2)]) = CompressEdge.secondPart s e2 t w2 := by
    intro B1 hB1
    unfold CompressEdge.secondPart
    cases he2 : mapFind s.m_edge_id_to_list_index_map e2 with
    | none => simp [GetBucketReference_none he2]
    | some k2 =>
      rw [GetBucketReference_eq he2 (hc.live_lt e2 k2 he2)]
      exact hB1 k2
  cases h1 : mapFind s.m_edge_id_to_list_index_map e1 with
  | some k1 =>
    have hk1 := hc.live_lt e1 k1 h1
    obtain ⟨s2, s3, hadd, happ, hI3, hgone, hidx, hbuck, hfirst, hlen⟩ :=
      CompressEdge.finish hc h1 (fun e k _ hek => hI.live_two e k hek) e2 v t w1 w2
    refine ⟨g, s3, ?_, hI3, hgone, ?_, ?_, ?_, ?_⟩
    · simp [CompressEdge, hv, createEntry_live h1, hadd, happ]
    · intro e _ he2; exact hidx e he2
    · intro e k he1 he2 hek
      refine hbuck k ?_ ?_
      · intro hkk; subst hkk
        exact he1 (hc.live_inj e e1 k hek h1)
      · intro h2
        exact he2 (hc.live_inj e e2 k hek h2)
    · intro hne
      refine ⟨k1, ?_, Or.inr rfl, ?_⟩
      · rw [hidx e1 hne, h1]
      · rw [hfirst hne, hsecond _ (fun _ => rfl)]
        congr 1
        simp [CompressEdge.firstPart, GetBucketReference_eq h1 hk1]
    · exact le_of_eq hlen.symm
  | none =>
    obtain ⟨g1, B1, F0, b, hce, hcore, hB1, hlen1⟩ := createEntry_new (g := g) h1
    have hcg := hcore hc
    have hc1 : Core g1 ⟨B1, F0, mapInsert s.m_edge_id_to_list_index_map e1 b⟩ := hcg.pop e1
    have hb1 : mapFind (mapInsert s.m_edge_id_to_list_index_map e1 b) e1 = some b := by
      simp [mapFind_mapInsert]
    have hbempty : B1.getD b [] = [] := hcg.free_empty b (by simp)
    have hother : ∀ e, e ≠ e1 → mapFind (mapInsert s.m_edge_id_to_list_index_map e1 b) e
        = mapFind s.m_edge_id_to_list_index_map e := by
      intro e he; simp [mapFind_mapInsert, he]
    obtain ⟨s2, s3, hadd, happ, hI3, hgone, hidx, hbuck, hfirst, hlen⟩ :=
      @CompressEdge.finish g1 ⟨B1, F0, mapInsert s.m_edge_id_to_list_index_map e1 b⟩ e1 b
        hc1 hb1 (by
          intro e k he hek
          simp only at hek ⊢
          rw [hother e he] at hek
          rw [hB1]
          exact hI.live_two e k hek) e2 v t w1 w2
    simp only at hidx hbuck hfirst hlen
    refine ⟨g1, s3, ?_, hI3, hgone, ?_, ?_, ?_, ?_⟩
    · simp [CompressEdge, hv, hce, hadd, happ]
    · intro e he1 he2
      rw [hidx e he2, hother e he1]
    · intro e k he1 he2 hek
      rw [← hB1]
      refine hbuck k ?_ ?_
      · intro hkk; subst hkk
        exact hcg.live_not_free e k hek (by simp)
      · intro h2
        by_cases h12 : e2 = e1
        · subst h12
          rw [hb1] at h2
          have := Option.some.inj h2
          subst this
          exact hcg.live_not_free e b hek (by simp)
        · rw [hother e2 h12] at h2
          exact he2 (hc.live_inj e e2 k hek h2)
    · intro hne
      refine ⟨b, ?_, Or.inl rfl, ?_⟩
      · rw [hidx e1 hne, hb1]
      · rw [hfirst hne, hother e2 (Ne.symm hne), hsecond _ hB1, hbempty]
        congr 1
        simp [CompressEdge.firstPart, GetBucketReference_none h1]
    · rw [hlen]; exact hlen1

theorem writeIndices_eq (B : List (List CompressedNode)) (p : Nat)
    (h : p + (B.map List.length).sum < 4294967296)
    (hB : ∀ b ∈ B, b.length ≠ UINT_MAX) :
    SerializeInternalVector.writeIndices B p
      = .ok ((List.range B.length).map (fun i => p + ((B.take i).map List.length).sum),
             p + (B.map List.length).sum) := by
  induction B generalizing p with
  | nil => simp [SerializeInternalVector.writeIndices]
  | cons b rest ih =>
    simp only [List.map_cons, List.sum_cons] at h
    have hb : b.length % 4294967296 = b.length := Nat.mod_eq_of_lt (by omega)
    have hpb : (p + b.length) % 4294967296 = p + b.length := Nat.mod_eq_of_lt (by omega)
    have hne : ¬ UINT_MAX = b.length := fun hh => hB b (List.mem_cons_self _ _) hh.symm
    simp only [SerializeInternalVector.writeIndices, hb, hpb, hne, if_false]
    rw [ih (p + b.length) (by omega) (fun c hc => hB c (List.mem_cons_of_mem _ hc))]
    simp only [List.length_cons, List.range_succ_eq_map, List.map_cons, List.take_zero,
      List.map_nil, List.sum_nil, Nat.add_zero, List.map_map, List.sum_cons]
    congr 2
    · congr 1
      apply List.map_congr_left
      intro i _
      simp [Nat.add_assoc]
    · omega

theorem writeGeometries_eq (B : List (List CompressedNode)) (c : Nat)
    (h : c + (B.map List.length).sum < 4294967296)
    (hB : ∀ b ∈ B, b.length ≠ UINT_MAX) :
    SerializeInternalVector.writeGeometries B c
      = .ok ((B.map nodeIds).flatten, c + (B.map List.length).sum) := by
  induction B generalizing c with
  | nil => simp [SerializeInternalVector.writeGeometries]
  | cons b rest ih =>
    simp only [List.map_cons, List.sum_cons] at h
    have hb : b.length % 4294967296 = b.length := Nat.mod_eq_of_lt (by omega)
    have hpb : (c + b.length) % 4294967296 = c + b.length := Nat.mod_eq_of_lt (by omega)
    have hne : ¬ UINT_MAX = b.length := fun hh => hB b (List.mem_cons_self _ _) hh.symm
    simp only [SerializeInternalVector.writeGeometries, hb, hpb, hne, if_false]
    rw [ih (c + b.length) (by omega) (fun d hd => hB d (List.mem_cons_of_mem _ hd))]
    simp only [List.map_cons, List.flatten_cons, List.sum_cons, nodeIds]
    congr 2
    omega

/-- With fewer than `2^32 - 2` slots, fewer than `2^32` nodes and no bucket of exactly
`UINT_MAX` nodes the writer returns, and the words are those of the layout. -/
theorem SerializeInternalVector_eq (s : GeometryCompressor)
    (hn : s.m_compressed_geometries.length + 1 < 4294967295)
    (hS : totalNodeCount s < 4294967296)
    (hB : ∀ b ∈ s.m_compressed_geometries, b.length ≠ UINT_MAX) :
    SerializeInternalVector s = .ok (specStream s) := by
  unfold totalNodeCount at hS
  have h1 : (s.m_compressed_geometries.length + 1) % 4294967296
      = s.m_compressed_geometries.length + 1 := Nat.mod_eq_of_lt (by omega)
  have hne : ¬ UINT_MAX = s.m_compressed_geometries.length + 1 := by unfold UINT_MAX; omega
  have hlt : ¬ 4294967296 ≤ s.m_compressed_geometries.length := by omega
  have hwi := writeIndices_eq s.m_compressed_geometries 0 (by omega) hB
  have hwg := writeGeometries_eq s.m_compressed_geometries 0 (by omega) hB
  simp only [SerializeInternalVector, h1, hne, hlt, if_false, hwi, hwg, Nat.zero_add, if_true]
  simp only [specStream, specOffsets, totalNodeCount, List.range_succ, List.map_append,
    List.map_cons, List.map_nil, List.take_length, List.append_assoc]

theorem length_specOffsets (B : List (List CompressedNode)) :
    (specOffsets B).length = B.length + 1 := by
  simp [specOffsets]

theorem length_flatten_nodeIds (B : List (List CompressedNode)) :
    ((B.map nodeIds).flatten).length = (B.map List.length).sum := by
  induction B with
  | nil => simp
  | cons b rest ih => simp [nodeIds, ih]

theorem getD_specOffsets (B : List (List CompressedNode)) (k : Nat) (hk : k ≤ B.length) :
    (specOffsets B).getD k 0 = ((B.take k).map List.length).sum := by
  have hk' : k < (List.range (B.length + 1)).length := by simp; omega
  simp [specOffsets, List.getD_eq_getElem?_getD, List.getElem?_map,
    List.getElem?_eq_getElem hk']

theorem decodeStream_specStream (s : GeometryCompressor) :
    decodeStream (specStream s) = some
      ⟨s.m_compressed_geometries.length + 1, specOffsets s.m_compressed_geometries,
        totalNodeCount s, (s.m_compressed_geometries.map nodeIds).flatten⟩ := by
  have hl := length_specOffsets s.m_compressed_geometries
  have hd : (specOffsets s.m_compressed_geometries ++ totalNodeCount s ::
      (s.m_compressed_geometries.map nodeIds).flatten).drop
        (s.m_compressed_geometries.length + 1)
      = totalNodeCount s :: (s.m_compressed_geometries.map nodeIds).flatten := by
    rw [← hl]; exact List.drop_left _ _
  have ht : (specOffsets s.m_compressed_geometries ++ totalNodeCount s ::
      (s.m_compressed_geometries.map nodeIds).flatten).take
        (s.m_compressed_geometries.length + 1)
      = specOffsets s.m_compressed_geometries := by
    rw [← hl]; exact List.take_left _ _
  simp only [specStream, List.singleton_append, List.append_assoc, decodeStream,
    List.cons_append, List.nil_append]
  rw [hd, ht]
  have hf := length_flatten_nodeIds s.m_compressed_geometries
  simp only [hl, hf, totalNodeCount, and_self, if_true]

/-- The CSR range of slot `k` in the concatenated node ids is the projection of bucket `k`. -/
theorem flatten_range (B : List (List CompressedNode)) (k : Nat) :
    (((B.map nodeIds).flatten).drop (((B.take k).map List.length).sum)).take
        ((((B.take (k + 1)).map List.length).sum) - (((B.take k).map List.length).sum))
      = nodeIds (B.getD k []) := by
  induction B generalizing k with
  | nil => simp [nodeIds]
  | cons b rest ih =>
    cases k with
    | zero =>
      simp only [List.take_zero, List.map_nil, List.sum_nil, List.drop_zero, List.map_cons,
        List.flatten_cons, Nat.zero_add, List.take_succ_cons, List.sum_cons, Nat.add_zero,
        Nat.sub_zero, List.getD_cons_zero]
      have : b.length = (nodeIds b).length := by simp [nodeIds]
      rw [this, List.take_left]
    | succ j =>
      simp only [List.take_succ_cons, List.map_cons, List.sum_cons, List.flatten_cons,
        List.getD_cons_succ]
      have hlen : b.length = (nodeIds b).length := by simp [nodeIds]
      have hdrop : List.drop (b.length + ((rest.take j).map List.length).sum)
          (nodeIds b ++ (rest.map nodeIds).flatten)
          = List.drop (((rest.take j).map List.length).sum) ((rest.map nodeIds).flatten) := by
        rw [hlen, List.drop_append]
      rw [hdrop, Nat.add_sub_add_left]
      exact ih j

theorem argumentsValid_of_ok {g : Nat} {s : GeometryCompressor} {e1 e2 : EdgeID} {v t : NodeID}
    {w1 w2 : EdgeWeight} {r : Nat × GeometryCompressor}
    (h : CompressEdge g s e1 e2 v t w1 w2 = .ok r) :
    CompressEdge.argumentsValid e1 e2 v t w1 w2 = true := by
  by_contra hv
  simp [CompressEdge, hv] at h

theorem Inv.of_fresh_store : Inv (ctor 0).1 (ctor 0).2 :=
  ⟨Core.of_ctor, by intro e k h; simp [ctor, IncreaseFreeList, mapFind] at h⟩

/-- A returning call keeps the invariant. -/
theorem Inv.preserved {g : Nat} {s : GeometryCompressor} (hI : Inv g s) {e1 e2 : EdgeID}
    {v t : NodeID} {w1 w2 : EdgeWeight} {g' : Nat} {s' : GeometryCompressor}
    (h : CompressEdge g s e1 e2 v t w1 w2 = .ok (g', s')) : Inv g' s' := by
  obtain ⟨g2, s2, hok, hI2, _⟩ := CompressEdge.step_spec hI e1 e2 v t w1 w2 (argumentsValid_of_ok h)
  rw [h] at hok
  cases hok
  exact hI2

theorem Reachable.inv {g : Nat} {s : GeometryCompressor} (h : Reachable g s) : Inv g s := by
  induction h with
  | fresh => exact Inv.of_fresh_store
  | step c _ hstep ih => exact ih.preserved hstep

theorem Reachable.of_runCalls {calls : List Call} {p q : Nat × GeometryCompressor}
    (hp : Reachable p.1 p.2) (h : runCalls p calls = .ok q) : Reachable q.1 q.2 := by
  induction calls generalizing p with
  | nil =>
    simp only [OSRM.runCalls] at h
    cases h
    exact hp
  | cons c rest ih =>
    simp only [OSRM.runCalls] at h
    split at h
    · cases h
    · rename_i p' hc
      exact ih (Reachable.step c hp hc) h

theorem CompressEdge_specExampleFirst :
    CompressEdge (ctor 0).1 (ctor 0).2 10 20 5 6 3 4 = .ok (100, specExampleFirst) := rfl

theorem CompressEdge_specExampleSecond :
    CompressEdge 100 specExampleFirst 30 10 7 8 1 2 = .ok (100, specExampleSecond) := rfl

theorem CompressEdge_specExampleThird :
    CompressEdge 100 specExampleSecond 40 50 9 10 1 1 = .ok (100, specExampleThird) := rfl

theorem reachable_specExampleFirst : Reachable 100 specExampleFirst :=
  Reachable.step ⟨10, 20, 5, 6, 3, 4⟩ Reachable.fresh CompressEdge_specExampleFirst

theorem reachable_specExampleSecond : Reachable 100 specExampleSecond :=
  Reachable.step ⟨30, 10, 7, 8, 1, 2⟩ reachable_specExampleFirst CompressEdge_specExampleSecond

theorem reachable_specExampleThird : Reachable 100 specExampleThird :=
  Reachable.step ⟨40, 50, 9, 10, 1, 1⟩ reachable_specExampleSecond CompressEdge_specExampleThird

theorem reachable_twoChains : Reachable 100 twoChains :=
  @Reachable.of_runCalls [⟨1, 2, 11, 12, 1, 2⟩, ⟨3, 4, 13, 14, 3, 4⟩] (ctor 0) (100, twoChains)
    Reachable.fresh rfl

theorem sum_take_le (B : List (List CompressedNode)) (i j : Nat) (h : i ≤ j) :
    ((B.take i).map List.length).sum ≤ ((B.take j).map List.length).sum := by
  induction B generalizing i j with
  | nil => simp
  | cons b rest ih =>
    cases i with
    | zero => simp
    | succ i' =>
      cases j with
      | zero => omega
      | succ j' =>
        simp only [List.take_succ_cons, List.map_cons, List.sum_cons]
        have := ih i' j' (by omega)
        omega

theorem sum_take_succ (B : List (List CompressedNode)) (k : Nat) :
    ((B.take (k + 1)).map List.length).sum
      = ((B.take k).map List.length).sum + (B.getD k []).length := by
  induction B generalizing k with
  | nil => simp
  | cons b rest ih =>
    cases k with
    | zero => simp
    | succ k' =>
      simp only [List.take_succ_cons, List.map_cons, List.sum_cons, List.getD_cons_succ]
      rw [ih k']
      omega

theorem writeIndices_assertion (B : List (List CompressedNode)) (p : Nat)
    (b : List CompressedNode) (hb : b ∈ B) (hlen : b.length % 4294967296 = UINT_MAX) :
    SerializeInternalVector.writeIndices B p = .error .assertion := by
  induction B generalizing p with
  | nil => cases hb
  | cons c rest ih =>
    by_cases hc : UINT_MAX = c.length % 4294967296
    · simp [SerializeInternalVector.writeIndices, hc.symm]
    · have hmem : b ∈ rest := by
        rcases List.mem_cons.mp hb with h | h
        · subst h; exact absurd hlen.symm hc
        · exact h
      simp only [SerializeInternalVector.writeIndices, hc, if_false]
      rw [ih _ hmem]

theorem writeIndices_replicate_nil (m : Nat) :
    SerializeInternalVector.writeIndices (List.replicate m []) 0
      = .ok (List.replicate m 0, 0) := by
  induction m with
  | zero => simp [SerializeInternalVector.writeIndices]
  | succ n ih =>
    simp only [List.replicate_succ, SerializeInternalVector.writeIndices, List.length_nil,
      Nat.zero_mod, Nat.add_zero, ih]
    simp [UINT_MAX]

theorem writeGeometries_replicate_nil (m : Nat) :
    SerializeInternalVector.writeGeometries (List.replicate m []) 0 = .ok ([], 0) := by
  induction m with
  | zero => simp [SerializeInternalVector.writeGeometries]
  | succ n ih =>
    simp only [List.replicate_succ, SerializeInternalVector.writeGeometries, List.length_nil,
      Nat.zero_mod, Nat.add_zero, ih]
    simp [UINT_MAX]

/-- A store of `m` empty slots whose count field wraps does not produce the layout. -/
theorem serialize_emptySlots_ne (m : Nat) (h1 : UINT_MAX ≠ (m + 1) % 4294967296)
    (h2 : m < 4294967296) (h3 : (m + 1) % 4294967296 ≠ m + 1) :
    SerializeInternalVector (emptySlots m) ≠ .ok (specStream (emptySlots m)) := by
  have hs : SerializeInternalVector (emptySlots m)
      = .ok ((m + 1) % 4294967296 :: (List.replicate m 0 ++ [0, 0])) := by
    have hlt : ¬ 4294967296 ≤ m := by omega
    simp [SerializeInternalVector, emptySlots, writeIndices_replicate_nil,
      writeGeometries_replicate_nil, h1, hlt]
  rw [hs]
  intro h
  simp only [specStream, emptySlots, List.length_replicate, List.singleton_append,
    List.append_assoc, List.cons_append, Except.ok.injEq, List.cons.injEq] at h
  exact h3 h.1

theorem totalNodeCount_emptySlots (m : Nat) : totalNodeCount (emptySlots m) = 0 := by
  simp [totalNodeCount, emptySlots]

theorem getD_append_singleton {α : Type} (L : List α) (x d : α) :
    (L ++ [x]).getD L.length d = x := by
  simp [List.getD_eq_getElem?_getD]

theorem set_append_singleton {α : Type} (L : List α) (x y : α) :
    (L ++ [x]).set L.length y = L ++ [y] := by
  induction L with
  | nil => rfl
  | cons a rest ih => simp [ih]

theorem totalNodeCount_chainState (n : Nat) : totalNodeCount (chainState n) = n := by
  simp [totalNodeCount, chainState]

theorem CompressEdge_chainState (n : Nat) :
    CompressEdge 100 (chainState (n + 1)) 0 1 0 0 0 0 = .ok (100, chainState (n + 2)) := by
  have hlen : (List.replicate 99 ([] : List CompressedNode)).length = 99 := by simp
  have h1 : mapFind (chainState (n + 1)).m_edge_id_to_list_index_map 0 = some 99 := rfl
  have h2 : mapFind (chainState (n + 1)).m_edge_id_to_list_index_map 1 = none := rfl
  have hk : 99 < (chainState (n + 1)).m_compressed_geometries.length := by
    simp [chainState]
  have hget : (chainState (n + 1)).m_compressed_geometries.getD 99 []
      = List.replicate (n + 1) (0, 0) := by
    have := getD_append_singleton (List.replicate 99 ([] : List CompressedNode))
      (List.replicate (n + 1) ((0, 0) : CompressedNode)) []
    rw [hlen] at this
    exact this
  have hne : ¬ List.replicate (n + 1) ((0, 0) : CompressedNode) = [] := by
    simp [List.replicate_succ]
  have hadd := addViaNode_eq h1 hk 0 0
  rw [hget] at hadd
  simp only [hne, if_false] at hadd
  have hset : ∀ y, (chainState (n + 1)).m_compressed_geometries.set 99 y
      = List.replicate 99 [] ++ [y] := by
    intro y
    have := set_append_singleton (List.replicate 99 ([] : List CompressedNode))
      (List.replicate (n + 1) ((0, 0) : CompressedNode)) y
    rw [hlen] at this
    exact this
  rw [hset] at hadd
  have happ := appendSecond_atomic
    (s := ⟨List.replicate 99 [] ++ [List.replicate (n + 1) (0, 0)],
      (chainState (n + 1)).m_free_list, (chainState (n + 1)).m_edge_id_to_list_index_map⟩)
    h2 99 0 0
  have hget' : (List.replicate 99 ([] : List CompressedNode)
      ++ [List.replicate (n + 1) ((0, 0) : CompressedNode)]).getD 99 []
      = List.replicate (n + 1) (0, 0) := hget
  have hset' : ∀ y, (List.replicate 99 ([] : List CompressedNode)
      ++ [List.replicate (n + 1) ((0, 0) : CompressedNode)]).set 99 y
      = List.replicate 99 [] ++ [y] := hset
  simp only [hget', hset'] at happ
  have hv : CompressEdge.argumentsValid 0 1 0 0 0 0 = true := rfl
  simp only [CompressEdge, hv, if_true, createEntry_live h1, hadd, happ]
  have hrep : List.replicate (n + 1) ((0, 0) : CompressedNode) ++ [(0, 0)]
      = List.replicate (n + 2) (0, 0) := by
    rw [← List.replicate_succ']
  rw [hrep]
  rfl

theorem reachable_chainState (n : Nat) : Reachable 100 (chainState (n + 2)) := by
  induction n with
  | zero =>
    exact Reachable.step ⟨0, 1, 0, 0, 0, 0⟩ Reachable.fresh
      (rfl : CompressEdge (ctor 0).1 (ctor 0).2 0 1 0 0 0 0 = .ok (100, chainState 2))
  | succ m ih =>
    exact Reachable.step ⟨0, 1, 0, 0, 0, 0⟩ ih (CompressEdge_chainState (m + 1))

theorem serialize_chainState_assertion (n : Nat) (h : n % 4294967296 = UINT_MAX) :
    SerializeInternalVector (chainState n) = .error .assertion := by
  have hw := writeIndices_assertion (chainState n).m_compressed_geometries 0
    (List.replicate n (0, 0)) (by simp [chainState]) (by simpa using h)
  have hl : (chainState n).m_compressed_geometries.length = 100 := by simp [chainState]
  simp [SerializeInternalVector, hl, hw, UINT_MAX]

theorem GetBucketReference_ok {s : GeometryCompressor} {e : EdgeID} {b : List CompressedNode}
    (h : GetBucketReference s e = .ok b) :
    ∃ k, mapFind s.m_edge_id_to_list_index_map e = some k ∧
      k < s.m_compressed_geometries.length ∧ s.m_compressed_geometries.getD k [] = b := by
  unfold GetBucketReference at h
  cases hm : mapFind s.m_edge_id_to_list_index_map e with
  | none => simp [hm] at h
  | some k =>
    simp only [hm] at h
    cases hb : s.m_compressed_geometries[k]? with
    | none => simp [hb] at h
    | some b' =>
      simp only [hb, Except.ok.injEq] at h
      subst h
      have hk : k < s.m_compressed_geometries.length := by
        by_contra hlt
        rw [List.getElem?_eq_none (by omega)] at hb
        cases hb
      exact ⟨k, rfl, hk, by simp [List.getD_eq_getElem?_getD, hb]⟩

theorem runCalls_keeps_absent {calls : List Call} {p q : Nat × GeometryCompressor}
    (hI : Inv p.1 p.2) (e : EdgeID) (he : ∀ c ∈ calls, c.edge_id_1 ≠ e)
    (hp : mapFind p.2.m_edge_id_to_list_index_map e = none)
    (h : runCalls p calls = .ok q) : mapFind q.2.m_edge_id_to_list_index_map e = none := by
  induction calls generalizing p with
  | nil =>
    simp only [runCalls] at h
    cases h
    exact hp
  | cons c rest ih =>
    simp only [runCalls] at h
    split at h
    · cases h
    · rename_i p' hc
      obtain ⟨g', s', hok, hI', hgone, hidx, _⟩ :=
        CompressEdge.step_spec hI c.edge_id_1 c.edge_id_2 c.via_node_id c.target_node_id
          c.weight1 c.weight2 (argumentsValid_of_ok hc)
      rw [hc] at hok
      cases hok
      refine ih hI' (fun c' hc' => he c' (List.mem_cons_of_mem _ hc')) ?_ h
      by_cases h2 : e = c.edge_id_2
      · rw [h2]; exact hgone
      · rw [hidx e (Ne.symm (he c (List.mem_cons_self _ _))) h2]
        exact hp

theorem sum_length_set (B : List (List CompressedNode)) (k : Nat) (x : List CompressedNode)
    (hk : k < B.length) :
    ((B.set k x).map List.length).sum + (B.getD k []).length
      = (B.map List.length).sum + x.length := by
  induction B generalizing k with
  | nil => simp at hk
  | cons b rest ih =>
    cases k with
    | zero => simp; omega
    | succ j =>
      simp only [List.length_cons, Nat.add_lt_add_iff_right] at hk
      simp only [List.set_cons_succ, List.map_cons, List.sum_cons, List.getD_cons_succ]
      have := ih j hk
      omega

theorem sum_length_eq_range (B : List (List CompressedNode)) (n : Nat) (h : B.length ≤ n) :
    (B.map List.length).sum = ((List.range n).map (fun k => (B.getD k []).length)).sum := by
  induction B generalizing n with
  | nil => simp
  | cons b rest ih =>
    cases n with
    | zero => simp at h
    | succ m =>
      simp only [List.length_cons, Nat.add_le_add_iff_right] at h
      rw [List.range_succ_eq_map]
      simp only [List.map_cons, List.sum_cons, List.getD_cons_zero, List.map_map]
      rw [ih m h]
      congr 1

theorem sum_length_congr (B B1 : List (List CompressedNode)) (hlen : B.length ≤ B1.length)
    (h : ∀ k, B1.getD k [] = B.getD k []) :
    (B1.map List.length).sum = (B.map List.length).sum := by
  rw [sum_length_eq_range B1 B1.length (le_refl _), sum_length_eq_range B B1.length hlen]
  congr 1
  apply List.map_congr_left
  intro k _
  rw [h k]

/-- Lines 170-211 with two different edges never lower the total node count. -/
theorem CompressEdge.finish_total {g1 : Nat} {s1 : GeometryCompressor} {e1 e2 : EdgeID}
    {k1 : Nat} (hc : Core g1 s1) (h1 : mapFind s1.m_edge_id_to_list_index_map e1 = some k1)
    (hne : e1 ≠ e2) (v t : NodeID) (w1 w2 : EdgeWeight) (s2 s3 : GeometryCompressor)
    (hadd : CompressEdge.addViaNode s1 e1 v w1 = .ok (k1, s2))
    (happ : CompressEdge.appendSecond s2 k1 e2 t w2 = .ok s3) :
    totalNodeCount s1 ≤ totalNodeCount s3 := by
  have hk1 : k1 < s1.m_compressed_geometries.length := hc.live_lt e1 k1 h1
  rw [addViaNode_eq h1 hk1 v w1] at hadd
  generalize hH : (if s1.m_compressed_geometries.getD k1 [] = [] then [(v, w1)]
         else s1.m_compressed_geometries.getD k1 []) = H at hadd
  have hHlen : (s1.m_compressed_geometries.getD k1 []).length ≤ H.length := by
    rw [← hH]
    split
    · rename_i h0; rw [h0]; simp
    · exact le_refl _
  simp only [Except.ok.injEq, Prod.mk.injEq, true_and] at hadd
  subst hadd
  have hget : (s1.m_compressed_geometries.set k1 H).getD k1 [] = H :=
    getD_set_self _ _ _ _ hk1
  unfold totalNodeCount
  cases he2 : mapFind s1.m_edge_id_to_list_index_map e2 with
  | none =>
    rw [appendSecond_atomic (by exact he2) k1 t w2] at happ
    simp only [Except.ok.injEq] at happ
    subst happ
    simp only [hget, List.set_set]
    have := sum_length_set s1.m_compressed_geometries k1 (H ++ [(t, w2)]) hk1
    simp only [List.length_append, List.length_singleton] at this
    omega
  | some k2 =>
    have hk2 : k2 < s1.m_compressed_geometries.length := hc.live_lt e2 k2 he2
    have hkk : k1 ≠ k2 := by
      intro heq; subst heq
      exact hne (hc.live_inj e1 e2 k1 h1 he2)
    rw [appendSecond_live (by exact he2) (by simpa using hk2) k1 t w2] at happ
    simp only [Except.ok.injEq] at happ
    subst happ
    simp only [hget, List.set_set, getD_set_of_ne _ _ _ _ _ hkk]
    have h1' := sum_length_set s1.m_compressed_geometries k1
      (H ++ s1.m_compressed_geometries.getD k2 []) hk1
    have h2' := sum_length_set (s1.m_compressed_geometries.set k1
      (H ++ s1.m_compressed_geometries.getD k2 [])) k2 [] (by simpa using hk2)
    rw [getD_set_of_ne _ _ _ _ _ hkk] at h2'
    simp only [List.length_append, List.length_nil] at h1' h2'
    omega

/-- A returning call with two different edges never lowers the total node count. -/
theorem CompressEdge.total_le {g : Nat} {s : GeometryCompressor} (hI : Inv g s)
    {e1 e2 : EdgeID} {v t : NodeID} {w1 w2 : EdgeWeight} (hne : e1 ≠ e2)
    {g' : Nat} {s' : GeometryCompressor}
    (h : CompressEdge g s e1 e2 v t w1 w2 = .ok (g', s')) :
    totalNodeCount s ≤ totalNodeCount s' := by
  have hv := argumentsValid_of_ok h
  have hc := hI.core
  simp only [CompressEdge, hv, if_true] at h
  cases h1 : mapFind s.m_edge_id_to_list_index_map e1 with
  | some k1 =>
    rw [createEntry_live h1] at h
    simp only at h
    obtain ⟨s2, s3, hadd, happ, _⟩ :=
      CompressEdge.finish hc h1 (fun e k _ hek => hI.live_two e k hek) e2 v t w1 w2
    have htot := CompressEdge.finish_total hc h1 hne v t w1 w2 s2 s3 hadd happ
    rw [hadd] at h
    simp only [happ, Except.ok.injEq, Prod.mk.injEq] at h
    rw [← h.2]
    exact htot
  | none =>
    obtain ⟨g1, B1, F0, b, hce, hcore, hB1, hlen1⟩ := createEntry_new (g := g) h1
    have hcg := hcore hc
    have hc1 : Core g1 ⟨B1, F0, mapInsert s.m_edge_id_to_list_index_map e1 b⟩ := hcg.pop e1
    have hb1 : mapFind (mapInsert s.m_edge_id_to_list_index_map e1 b) e1 = some b := by
      simp [mapFind_mapInsert]
    rw [hce] at h
    simp only at h
    obtain ⟨s2, s3, hadd, happ, _⟩ :=
      @CompressEdge.finish g1 ⟨B1, F0, mapInsert s.m_edge_id_to_list_index_map e1 b⟩ e1 b
        hc1 hb1 (by
          intro e k he hek
          simp only [mapFind_mapInsert, he, if_false] at hek
          simp only
          rw [hB1]
          exact hI.live_two e k hek) e2 v t w1 w2
    have htot := CompressEdge.finish_total hc1 hb1 hne v t w1 w2 s2 s3 hadd happ
    rw [hadd] at h
    simp only [happ, Except.ok.injEq, Prod.mk.injEq] at h
    rw [← h.2]
    have hsame : totalNodeCount (⟨B1, F0, mapInsert s.m_edge_id_to_list_index_map e1 b⟩
        : GeometryCompressor) = totalNodeCount s := by
      unfold totalNodeCount
      exact sum_length_congr _ _ hlen1 hB1
    rw [← hsame]
    exact htot

theorem writeIndices_sum (B : List (List CompressedNode)) (p : Nat) (hp : p < 4294967296)
    (r : List Nat × Nat) (h : SerializeInternalVector.writeIndices B p = .ok r) :
    r.2 = (p + (B.map List.length).sum) % 4294967296 := by
  induction B generalizing p r with
  | nil =>
    simp only [SerializeInternalVector.writeIndices, Except.ok.injEq] at h
    subst h
    simp only [List.map_nil, List.sum_nil, Nat.add_zero]
    exact (Nat.mod_eq_of_lt hp).symm
  | cons b rest ih =>
    simp only [SerializeInternalVector.writeIndices] at h
    split at h
    · cases h
    · split at h
      · cases h
      · rename_i r' hr'
        simp only [Except.ok.injEq] at h
        subst h
        have := ih _ (Nat.mod_lt _ (by decide)) r' hr'
        simp only [List.map_cons, List.sum_cons]
        rw [this]
        omega

theorem writeGeometries_sum (B : List (List CompressedNode)) (c : Nat) (hc : c < 4294967296)
    (r : List Nat × Nat) (h : SerializeInternalVector.writeGeometries B c = .ok r) :
    r.2 = (c + (B.map List.length).sum) % 4294967296 ∧ r.1 = (B.map nodeIds).flatten := by
  induction B generalizing c r with
  | nil =>
    simp only [SerializeInternalVector.writeGeometries, Except.ok.injEq] at h
    subst h
    simp only [List.map_nil, List.sum_nil, Nat.add_zero, List.flatten_nil, and_true]
    exact (Nat.mod_eq_of_lt hc).symm
  | cons b rest ih =>
    simp only [SerializeInternalVector.writeGeometries] at h
    split at h
    · cases h
    · split at h
      · cases h
      · rename_i r' hr'
        simp only [Except.ok.injEq] at h
        subst h
        have := ih _ (Nat.mod_lt _ (by decide)) r' hr'
        simp only [List.map_cons, List.sum_cons, List.flatten_cons, nodeIds]
        refine ⟨?_, ?_⟩
        · rw [this.1]; omega
        · rw [this.2]

theorem writeIndices_congr (B B' : List (List CompressedNode)) (p : Nat)
    (h : B.map List.length = B'.map List.length) :
    SerializeInternalVector.writeIndices B p = SerializeInternalVector.writeIndices B' p := by
  induction B generalizing B' p with
  | nil =>
    cases B' with
    | nil => rfl
    | cons b' rest' => simp at h
  | cons b rest ih =>
    cases B' with
    | nil => simp at h
    | cons b' rest' =>
      simp only [List.map_cons, List.cons.injEq] at h
      simp only [SerializeInternalVector.writeIndices, h.1, ih rest' _ h.2]

theorem writeGeometries_congr (B B' : List (List CompressedNode)) (c : Nat)
    (h : B.map nodeIds = B'.map nodeIds) :
    SerializeInternalVector.writeGeometries B c
      = SerializeInternalVector.writeGeometries B' c := by
  induction B generalizing B' c with
  | nil =>
    cases B' with
    | nil => rfl
    | cons b' rest' => simp at h
  | cons b rest ih =>
    cases B' with
    | nil => simp at h
    | cons b' rest' =>
      simp only [List.map_cons, List.cons.injEq] at h
      have hlen : b.length = b'.length := by
        have := congrArg List.length h.1
        simpa [nodeIds] using this
      have hids : b.map (fun current_node => current_node.1)
          = b'.map (fun current_node => current_node.1) := h.1
      simp only [SerializeInternalVector.writeGeometries, hlen, hids, ih rest' _ h.2]

theorem map_length_of_map_nodeIds (B B' : List (List CompressedNode))
    (h : B.map nodeIds = B'.map nodeIds) : B.map List.length = B'.map List.length := by
  have := congrArg (List.map List.length) h
  simpa [List.map_map, Function.comp_def, nodeIds] using this

theorem PrintStatistics_compressed_edges (s : GeometryCompressor) (st : Statistics)
    (h : PrintStatistics s = .ok st) :
    st.compressed_edges = s.m_compressed_geometries.length % 4294967296 := by
  unfold PrintStatistics at h
  simp only at h
  split at h
  · cases h
  · split at h
    · cases h
    · simp only [Except.ok.injEq] at h
      rw [← h]

set_option maxRecDepth 1000000 in
theorem runCalls_fillingCalls : runCalls (ctor 0) fillingCalls = .ok (100, fullStore) := by
  decide

theorem reachable_fullStore : Reachable 100 fullStore :=
  @Reachable.of_runCalls fillingCalls (ctor 0) (100, fullStore) Reachable.fresh
    runCalls_fillingCalls

/-- The slot that `createEntry` registers for an edge without an index entry holds an empty
bucket. -/
theorem createEntry_fresh_slot {g : Nat} {s : GeometryCompressor} (hc : Core g s) {e1 : EdgeID}
    (h : mapFind s.m_edge_id_to_list_index_map e1 = none) :
    ∃ g1 s1 k, CompressEdge.createEntry g s e1 = .ok (g1, s1) ∧
      mapFind s1.m_edge_id_to_list_index_map e1 = some k ∧
      s1.m_compressed_geometries.getD k [] = [] := by
  obtain ⟨g1, B1, F0, b, hce, hcore, _, _⟩ := createEntry_new (g := g) h
  refine ⟨g1, _, b, hce, by simp [mapFind_mapInsert], ?_⟩
  exact (hcore hc).free_empty b (by simp)

/-- Lines 170-211 with two different edges: the total node count grows by one for a seeded via
pair and by one for an appended target pair, and the slot of an absorbed edge is left empty. -/
theorem CompressEdge.finish_exact {g1 : Nat} {s1 : GeometryCompressor} {e1 e2 : EdgeID}
    {k1 : Nat} (hc : Core g1 s1) (h1 : mapFind s1.m_edge_id_to_list_index_map e1 = some k1)
    (hne : e1 ≠ e2) (v t : NodeID) (w1 w2 : EdgeWeight) (s2 s3 : GeometryCompressor)
    (hadd : CompressEdge.addViaNode s1 e1 v w1 = .ok (k1, s2))
    (happ : CompressEdge.appendSecond s2 k1 e2 t w2 = .ok s3) :
    totalNodeCount s3 = totalNodeCount s1
        + (if s1.m_compressed_geometries.getD k1 [] = [] then 1 else 0)
        + (if mapFind s1.m_edge_id_to_list_index_map e2 = none then 1 else 0) ∧
      (∀ k2, mapFind s1.m_edge_id_to_list_index_map e2 = some k2 →
        s3.m_compressed_geometries.getD k2 [] = []) := by
  have hk1 : k1 < s1.m_compressed_geometries.length := hc.live_lt e1 k1 h1
  rw [addViaNode_eq h1 hk1 v w1] at hadd
  generalize hH : (if s1.m_compressed_geometries.getD k1 [] = [] then [(v, w1)]
         else s1.m_compressed_geometries.getD k1 []) = H at hadd
  have hHlen : H.length = (s1.m_compressed_geometries.getD k1 []).length
      + (if s1.m_compressed_geometries.getD k1 [] = [] then 1 else 0) := by
    rw [← hH]
    split
    · rename_i h0; rw [h0]; simp
    · simp
  simp only [Except.ok.injEq, Prod.mk.injEq, true_and] at hadd
  subst hadd
  have hget : (s1.m_compressed_geometries.set k1 H).getD k1 [] = H :=
    getD_set_self _ _ _ _ hk1
  unfold totalNodeCount
  cases he2 : mapFind s1.m_edge_id_to_list_index_map e2 with
  | none =>
    rw [appendSecond_atomic (by exact he2) k1 t w2] at happ
    simp only [Except.ok.injEq] at happ
    subst happ
    simp only [hget, List.set_set, if_true]
    refine ⟨?_, by intro k2 hk2; cases hk2⟩
    have := sum_length_set s1.m_compressed_geometries k1 (H ++ [(t, w2)]) hk1
    simp only [List.length_append, List.length_singleton] at this
    omega
  | some k2 =>
    have hk2 : k2 < s1.m_compressed_geometries.length := hc.live_lt e2 k2 he2
    have hkk : k1 ≠ k2 := by
      intro heq; subst heq
      exact hne (hc.live_inj e1 e2 k1 h1 he2)
    rw [appendSecond_live (by exact he2) (by simpa using hk2) k1 t w2] at happ
    simp only [Except.ok.injEq] at happ
    subst happ
    simp only [hget, List.set_set, getD_set_of_ne _ _ _ _ _ hkk]
    refine ⟨?_, ?_⟩
    · have h1' := sum_length_set s1.m_compressed_geometries k1
        (H ++ s1.m_compressed_geometries.getD k2 []) hk1
      have h2' := sum_length_set (s1.m_compressed_geometries.set k1
        (H ++ s1.m_compressed_geometries.getD k2 [])) k2 [] (by simpa using hk2)
      rw [getD_set_of_ne _ _ _ _ _ hkk] at h2'
      simp only [List.length_append, List.length_nil] at h1' h2'
      simp only [reduceCtorEq, if_false]
      omega
    · intro k2' hk2'
      cases hk2'
      exact getD_set_self _ _ _ _ (by simpa using hk2)

/-- A returning call with two different edges changes the total node count by exactly the
pairs it pushes: one when the first edge had no index entry (the via pair), one when the second
edge had none (the target pair); the slot of an absorbed second edge is left empty. -/
theorem CompressEdge.total_exact {g : Nat} {s : GeometryCompressor} (hI : Inv g s)
    {e1 e2 : EdgeID} {v t : NodeID} {w1 w2 : EdgeWeight} (hne : e1 ≠ e2)
    {g' : Nat} {s' : GeometryCompressor}
    (h : CompressEdge g s e1 e2 v t w1 w2 = .ok (g', s')) :
    totalNodeCount s' = totalNodeCount s
        + (if HasEntryForID s e1 = true then 0 else 1)
        + (if HasEntryForID s e2 = true then 0 else 1) ∧
      (∀ k2, mapFind s.m_edge_id_to_list_index_map e2 = some k2 →
        s'.m_compressed_geometries.getD k2 [] = []) := by
  have hv := argumentsValid_of_ok h
  have hc := hI.core
  have hsecond : (if HasEntryForID s e2 = true then 0 else 1)
      = (if mapFind s.m_edge_id_to_list_index_map e2 = none then 1 else 0) := by
    unfold HasEntryForID
    cases mapFind s.m_edge_id_to_list_index_map e2 <;> simp
  simp only [CompressEdge, hv, if_true] at h
  cases h1 : mapFind s.m_edge_id_to_list_index_map e1 with
  | some k1 =>
    rw [createEntry_live h1] at h
    simp only at h
    obtain ⟨s2, s3, hadd, happ, _⟩ :=
      CompressEdge.finish hc h1 (fun e k _ hek => hI.live_two e k hek) e2 v t w1 w2
    have hex := CompressEdge.finish_exact hc h1 hne v t w1 w2 s2 s3 hadd happ
    rw [hadd] at h
    simp only [happ, Except.ok.injEq, Prod.mk.injEq] at h
    rw [← h.2]
    have hnonempty : ¬ s.m_compressed_geometries.getD k1 [] = [] := by
      have := hI.live_two e1 k1 h1
      intro h0
      rw [h0] at this
      simp at this
    refine ⟨?_, hex.2⟩
    rw [hex.1, hsecond]
    simp only [hnonempty, if_false, HasEntryForID, h1, Option.isSome_some, if_true]
  | none =>
    obtain ⟨g1, B1, F0, b, hce, hcore, hB1, hlen1⟩ := createEntry_new (g := g) h1
    have hcg := hcore hc
    have hc1 : Core g1 ⟨B1, F0, mapInsert s.m_edge_id_to_list_index_map e1 b⟩ := hcg.pop e1
    have hb1 : mapFind (mapInsert s.m_edge_id_to_list_index_map e1 b) e1 = some b := by
      simp [mapFind_mapInsert]
    have hbempty : B1.getD b [] = [] := hcg.free_empty b (by simp)
    have he2 : mapFind (mapInsert s.m_edge_id_to_list_index_map e1 b) e2
        = mapFind s.m_edge_id_to_list_index_map e2 := by
      simp [mapFind_mapInsert, Ne.symm hne]
    rw [hce] at h
    simp only at h
    obtain ⟨s2, s3, hadd, happ, _⟩ :=
      @CompressEdge.finish g1 ⟨B1, F0, mapInsert s.m_edge_id_to_list_index_map e1 b⟩ e1 b
        hc1 hb1 (by
          intro e k he hek
          simp only [mapFind_mapInsert, he, if_false] at hek
          simp only
          rw [hB1]
          exact hI.live_two e k hek) e2 v t w1 w2
    have hex := CompressEdge.finish_exact hc1 hb1 hne v t w1 w2 s2 s3 hadd happ
    simp only [he2, hbempty, if_true] at hex
    rw [hadd] at h
    simp only [happ, Except.ok.injEq, Prod.mk.injEq] at h
    rw [← h.2]
    have hsame : totalNodeCount (⟨B1, F0, mapInsert s.m_edge_id_to_list_index_map e1 b⟩
        : GeometryCompressor) = totalNodeCount s := by
      unfold totalNodeCount
      exact sum_length_congr _ _ hlen1 hB1
    refine ⟨?_, hex.2⟩
    rw [hex.1, hsame, hsecond]
    simp only [HasEntryForID, h1, Option.isSome_none, Bool.false_eq_true, if_false]

/-- No reachable state has an indexed edge whose bucket holds exactly one node. -/
theorem Reachable.no_single_node_bucket {g : Nat} {s : GeometryCompressor}
    (hr : Reachable g s) (e : EdgeID) (P : CompressedNode) :
    GetBucketReference s e ≠ .ok [P] := by
  intro h
  obtain ⟨k, hk, _, hget⟩ := GetBucketReference_ok h
  have := hr.inv.live_two e k hk
  rw [hget] at this
  simp at this

/-! ## The claims -/

/-- Claim C1: on a reachable state, a call with valid arguments and two different edges returns;
afterwards the bucket of the first edge is its contribution followed by the contribution of the
second edge, and the second edge has no index entry. -/
theorem compressEdge_full_postcondition {g : Nat} {s : GeometryCompressor} (hr : Reachable g s)
    (e1 e2 : EdgeID) (v t : NodeID) (w1 w2 : EdgeWeight)
    (hv : CompressEdge.argumentsValid e1 e2 v t w1 w2 = true) (hne : e1 ≠ e2) :
    ∃ g' s', CompressEdge g s e1 e2 v t w1 w2 = .ok (g', s') ∧
      GetBucketReference s' e1
        = .ok (CompressEdge.firstPart s e1 v w1 ++ CompressEdge.secondPart s e2 t w2) ∧
      HasEntryForID s' e2 = false := by
  obtain ⟨g', s', hok, hI', hgone, _, _, hfirst, _⟩ :=
    CompressEdge.step_spec hr.inv e1 e2 v t w1 w2 hv
  obtain ⟨k1, hk1, _, hb⟩ := hfirst hne
  refine ⟨g', s', hok, ?_, ?_⟩
  · rw [GetBucketReference_eq hk1 (hI'.core.live_lt e1 k1 hk1), hb]
  · simp [HasEntryForID, hgone]

/-- Witness for C1: the splice call of the spec example, on the state after its first call. -/
theorem compressEdge_full_postcondition_witness :
    Reachable 100 specExampleFirst ∧
    CompressEdge.argumentsValid 30 10 7 8 1 2 = true ∧ (30 : EdgeID) ≠ 10 ∧
    ∃ g' s', CompressEdge 100 specExampleFirst 30 10 7 8 1 2 = .ok (g', s') ∧
      GetBucketReference s' 30
        = .ok (CompressEdge.firstPart specExampleFirst 30 7 1
            ++ CompressEdge.secondPart specExampleFirst 10 8 2) ∧
      HasEntryForID s' 10 = false :=
  ⟨reachable_specExampleFirst, rfl, by decide,
    compressEdge_full_postcondition reachable_specExampleFirst 30 10 7 8 1 2 rfl (by decide)⟩

/-- Two evaluations of a splice: splicing a two-node chain onto an existing bucket gives the old
bucket followed by the chain, without the via pair `(7, 5)` in between; this is so on the
reachable store `twoChains` (edge 1 holding two nodes) and on `singleNodeStore` (edge 1 holding
one node), a store that no sequence of calls reaches (`Reachable.no_single_node_bucket`). -/
theorem splice_with_via_pair_fails :
    (∃ s', CompressEdge 100 twoChains 1 3 7 8 5 6 = .ok (100, s') ∧
      GetBucketReference s' 1 = .ok [(11, 1), (12, 2), (13, 3), (14, 4)] ∧
      GetBucketReference s' 1 ≠ .ok [(11, 1), (12, 2), (7, 5), (13, 3), (14, 4)]) ∧
    (∃ s', CompressEdge 2 singleNodeStore 1 2 7 8 5 6 = .ok (2, s') ∧
      GetBucketReference singleNodeStore 1 = .ok [(21, 1)] ∧
      GetBucketReference singleNodeStore 2 = .ok [(22, 2), (23, 3)] ∧
      GetBucketReference s' 1 = .ok [(21, 1), (22, 2), (23, 3)] ∧
      GetBucketReference s' 1 ≠ .ok [(21, 1), (7, 5), (22, 2), (23, 3)]) :=
  ⟨⟨_, rfl, rfl, by decide⟩,
   ⟨_, rfl, rfl, rfl, rfl, by decide⟩⟩

/-- Splice on a reachable state: when the first edge has bucket `H` and a different second edge
has bucket `T`, the call returns and leaves the first edge with exactly `H ++ T` (neither the
via pair nor the target pair is added) and the second edge with no bucket. -/
theorem splice_appends_chain {g : Nat} {s : GeometryCompressor} (hr : Reachable g s)
    (e1 e2 : EdgeID) (H T : List CompressedNode)
    (h1 : GetBucketReference s e1 = .ok H) (h2 : GetBucketReference s e2 = .ok T)
    (hne : e1 ≠ e2) (v t : NodeID) (w1 w2 : EdgeWeight)
    (hv : CompressEdge.argumentsValid e1 e2 v t w1 w2 = true) :
    ∃ g' s', CompressEdge g s e1 e2 v t w1 w2 = .ok (g', s') ∧
      GetBucketReference s' e1 = .ok (H ++ T) ∧
      GetBucketReference s' e2 = .error .out_of_range := by
  obtain ⟨g', s', hok, hI', hgone, _, _, hfirst, _⟩ :=
    CompressEdge.step_spec hr.inv e1 e2 v t w1 w2 hv
  obtain ⟨k1, hk1, _, hb⟩ := hfirst hne
  obtain ⟨k, hk, _, hH⟩ := GetBucketReference_ok h1
  have hHne : H ≠ [] := by
    have := hr.inv.live_two e1 k hk
    rw [hH] at this
    intro h0; rw [h0] at this; simp at this
  refine ⟨g', s', hok, ?_, GetBucketReference_none hgone⟩
  rw [GetBucketReference_eq hk1 (hI'.core.live_lt e1 k1 hk1), hb]
  simp [CompressEdge.firstPart, CompressEdge.secondPart, h1, h2, hHne]

/-- The splice lemma on the two chains of `twoChains`. -/
theorem splice_appends_chain_witness :
    Reachable 100 twoChains ∧
    GetBucketReference twoChains 1 = .ok [(11, 1), (12, 2)] ∧
    GetBucketReference twoChains 3 = .ok [(13, 3), (14, 4)] ∧ (1 : EdgeID) ≠ 3 ∧
    CompressEdge.argumentsValid 1 3 7 8 5 6 = true ∧
    ∃ g' s', CompressEdge 100 twoChains 1 3 7 8 5 6 = .ok (g', s') ∧
      GetBucketReference s' 1 = .ok ([(11, 1), (12, 2)] ++ [(13, 3), (14, 4)]) ∧
      GetBucketReference s' 3 = .error .out_of_range :=
  ⟨reachable_twoChains, rfl, rfl, by decide, rfl,
    splice_appends_chain reachable_twoChains 1 3 _ _ rfl rfl (by decide) 7 8 5 6 rfl⟩

/-- Counterexample to C3 as stated: after `CompressEdge(1, 2, 11, 12, 1, 2)` and
`CompressEdge(1, 3, 13, 14, 3, 4)` on a fresh store, the bucket of edge 1 has three nodes; the
via pair `(13, 3)` of the second call is not in it. -/
theorem merge_with_second_via_pair_fails :
    ∃ s', runCalls (ctor 0) [⟨1, 2, 11, 12, 1, 2⟩, ⟨1, 3, 13, 14, 3, 4⟩] = .ok (100, s') ∧
      HasEntryForID (ctor 0).2 1 = false ∧ HasEntryForID (ctor 0).2 2 = false ∧
      HasEntryForID (ctor 0).2 3 = false ∧
      GetBucketReference s' 1 = .ok [(11, 1), (12, 2), (14, 4)] ∧
      GetBucketReference s' 1 ≠ .ok [(11, 1), (12, 2), (13, 3), (14, 4)] :=
  ⟨_, rfl, rfl, rfl, rfl, rfl, by decide⟩

/-- Claim C3, amended: on a reachable state and for pairwise distinct edges `A`, `B`, `C` without
an index entry, both calls return and the bucket of `A` is `[(v1,w1),(t1,w2)]` after the first
and exactly `[(v1,w1),(t1,w2),(t2,w4)]` after the second: a call with an atomic second edge adds
its target pair, and its via pair only when the first edge had no bucket yet. -/
theorem merge_atomic_twice {g : Nat} {s : GeometryCompressor} (hr : Reachable g s)
    (A B C : EdgeID) (hAB : A ≠ B) (hAC : A ≠ C) (hBC : B ≠ C)
    (hA : HasEntryForID s A = false) (hB : HasEntryForID s B = false)
    (hC : HasEntryForID s C = false)
    (v1 t1 v2 t2 : NodeID) (w1 w2 w3 w4 : EdgeWeight)
    (hv1 : CompressEdge.argumentsValid A B v1 t1 w1 w2 = true)
    (hv2 : CompressEdge.argumentsValid A C v2 t2 w3 w4 = true) :
    ∃ g1 s1 g2 s2, CompressEdge g s A B v1 t1 w1 w2 = .ok (g1, s1) ∧
      CompressEdge g1 s1 A C v2 t2 w3 w4 = .ok (g2, s2) ∧
      GetBucketReference s1 A = .ok [(v1, w1), (t1, w2)] ∧
      GetBucketReference s2 A = .ok [(v1, w1), (t1, w2), (t2, w4)] := by
  have hnone : ∀ {s : GeometryCompressor} {e : EdgeID}, HasEntryForID s e = false →
      mapFind s.m_edge_id_to_list_index_map e = none := by
    intro s e h
    simpa [HasEntryForID] using h
  obtain ⟨g1, s1, hok1, hI1, _, hidx1, _, hfirst1, _⟩ :=
    CompressEdge.step_spec hr.inv A B v1 t1 w1 w2 hv1
  obtain ⟨k1, hk1, _, hb1⟩ := hfirst1 hAB
  have hbucket1 : GetBucketReference s1 A = .ok [(v1, w1), (t1, w2)] := by
    rw [GetBucketReference_eq hk1 (hI1.core.live_lt A k1 hk1), hb1]
    simp [CompressEdge.firstPart, CompressEdge.secondPart, GetBucketReference_none (hnone hA),
      GetBucketReference_none (hnone hB)]
  have hC1 : mapFind s1.m_edge_id_to_list_index_map C = none := by
    rw [hidx1 C (Ne.symm hAC) (Ne.symm hBC)]
    exact hnone hC
  obtain ⟨g2, s2, hok2, hI2, _, _, _, hfirst2, _⟩ :=
    CompressEdge.step_spec hI1 A C v2 t2 w3 w4 hv2
  obtain ⟨k2, hk2, _, hb2⟩ := hfirst2 hAC
  refine ⟨g1, s1, g2, s2, hok1, hok2, hbucket1, ?_⟩
  rw [GetBucketReference_eq hk2 (hI2.core.live_lt A k2 hk2), hb2]
  simp [CompressEdge.firstPart, CompressEdge.secondPart, hbucket1, GetBucketReference_none hC1]

/-- Witness for C3, amended: edges 1, 2, 3 on a freshly constructed store. -/
theorem merge_atomic_twice_witness :
    Reachable (ctor 0).1 (ctor 0).2 ∧ (1 : EdgeID) ≠ 2 ∧ (1 : EdgeID) ≠ 3 ∧ (2 : EdgeID) ≠ 3 ∧
    HasEntryForID (ctor 0).2 1 = false ∧ HasEntryForID (ctor 0).2 2 = false ∧
    HasEntryForID (ctor 0).2 3 = false ∧
    CompressEdge.argumentsValid 1 2 11 12 1 2 = true ∧
    CompressEdge.argumentsValid 1 3 13 14 3 4 = true ∧
    ∃ g1 s1 g2 s2, CompressEdge (ctor 0).1 (ctor 0).2 1 2 11 12 1 2 = .ok (g1, s1) ∧
      CompressEdge g1 s1 1 3 13 14 3 4 = .ok (g2, s2) ∧
      GetBucketReference s1 1 = .ok [(11, 1), (12, 2)] ∧
      GetBucketReference s2 1 = .ok [(11, 1), (12, 2), (14, 4)] :=
  ⟨Reachable.fresh, by decide, by decide, by decide, rfl, rfl, rfl, rfl, rfl,
    merge_atomic_twice Reachable.fresh 1 2 3 (by decide) (by decide) (by decide) rfl rfl rfl
      11 12 13 14 1 2 3 4 rfl rfl⟩

/-- Counterexample to C4 as stated: after `2^32 - 2` calls `CompressEdge(0, 1, 0, 0, 0, 0)`
edge 0 holds `2^32 - 1` nodes, the total is below `2^32`, and the writer stops at the assertion
`UINT_MAX != unpacked_size` without producing a stream. -/
theorem roundtrip_fails_at_uint_max_chain :
    Reachable 100 (chainState 4294967295) ∧
    totalNodeCount (chainState 4294967295) < 4294967296 ∧
    HasEntryForID (chainState 4294967295) 0 = true ∧
    SerializeInternalVector (chainState 4294967295) = .error .assertion :=
  ⟨reachable_chainState 4294967293,
   by rw [totalNodeCount_chainState]; decide,
   rfl,
   serialize_chainState_assertion 4294967295 (by decide)⟩

/-- Claim C4, amended: on a reachable state with fewer than `2^32` nodes in total and no bucket
of exactly `UINT_MAX` nodes (the slot counter being within the range of its type `int`), the
writer returns; the stream reads back as `(offsetCount, offsets, totalNodeCount, nodeIds)`,
`nodeIds` is the concatenation of the node-id projections of all buckets in slot order, and for
every indexed edge with slot `k` the range `nodeIds[offsets[k] .. offsets[k+1])` is the node-id
projection of its bucket. -/
theorem serialization_roundtrip {g : Nat} {s : GeometryCompressor} (hr : Reachable g s)
    (hS : totalNodeCount s < 4294967296)
    (hB : ∀ b ∈ s.m_compressed_geometries, b.length ≠ UINT_MAX) (hg : g ≤ INT_MAX) :
    ∃ ws d, SerializeInternalVector s = .ok ws ∧ decodeStream ws = some d ∧
      d.nodeIds = (s.m_compressed_geometries.map nodeIds).flatten ∧
      ∀ e k, mapFind s.m_edge_id_to_list_index_map e = some k →
        ∃ bucket, GetBucketReference s e = .ok bucket ∧ d.range k = nodeIds bucket := by
  have hI := hr.inv
  have hn : s.m_compressed_geometries.length + 1 < 4294967295 := by
    have := hI.core.counter
    unfold INT_MAX at hg
    omega
  refine ⟨specStream s, _, SerializeInternalVector_eq s hn hS hB, decodeStream_specStream s,
    rfl, ?_⟩
  intro e k hek
  have hk := hI.core.live_lt e k hek
  refine ⟨_, GetBucketReference_eq hek hk, ?_⟩
  simp only [Decoded.range]
  rw [getD_specOffsets _ k (by omega), getD_specOffsets _ (k + 1) (by omega)]
  exact flatten_range _ k

set_option maxRecDepth 100000 in
/-- Witness for C4, amended: the state of the spec example. -/
theorem serialization_roundtrip_witness :
    Reachable 100 specExampleSecond ∧ totalNodeCount specExampleSecond < 4294967296 ∧
    (∀ b ∈ specExampleSecond.m_compressed_geometries, b.length ≠ UINT_MAX) ∧
    100 ≤ INT_MAX ∧
    ∃ ws d, SerializeInternalVector specExampleSecond = .ok ws ∧ decodeStream ws = some d ∧
      d.nodeIds = (specExampleSecond.m_compressed_geometries.map nodeIds).flatten ∧
      ∀ e k, mapFind specExampleSecond.m_edge_id_to_list_index_map e = some k →
        ∃ bucket, GetBucketReference specExampleSecond e = .ok bucket ∧
          d.range k = nodeIds bucket :=
  ⟨reachable_specExampleSecond, by decide, by decide, by decide,
    serialization_roundtrip reachable_specExampleSecond (by decide) (by decide) (by decide)⟩

/-- Counterexample to C5 as stated: with `2^32 - 1` empty slots the count field wraps to 0, so
the words written are not the layout although the total is 0; and one bucket of `2^32 - 1`
nodes (total below `2^32`) stops the writer at the assertion `UINT_MAX != unpacked_size`. -/
theorem layout_fails_beyond_uint_range :
    (totalNodeCount (emptySlots 4294967295) < 4294967296 ∧
      SerializeInternalVector (emptySlots 4294967295)
        ≠ .ok (specStream (emptySlots 4294967295))) ∧
    (totalNodeCount (chainState 4294967295) < 4294967296 ∧
      SerializeInternalVector (chainState 4294967295) = .error .assertion) :=
  ⟨⟨by rw [totalNodeCount_emptySlots]; decide,
    serialize_emptySlots_ne 4294967295 (by decide) (by decide) (by decide)⟩,
   ⟨by rw [totalNodeCount_chainState]; decide,
    serialize_chainState_assertion 4294967295 (by decide)⟩⟩

/-- Claim C5, amended: for every store state with `n < 2^32 - 2` slots, a total `S < 2^32` of
bucket lengths and no bucket of exactly `UINT_MAX` nodes, the writer returns exactly the words
`[n+1] ++ offsets ++ [S] ++ node ids` where `offsets[i]` is the sum of the lengths of slots
`0 .. i-1`; the stream has `n + S + 3` words, `offsets[0] = 0`, the offsets are non-decreasing,
`offsets[n] = S`, and an empty slot has a zero-width range. -/
theorem serialization_layout (s : GeometryCompressor)
    (hn : s.m_compressed_geometries.length < 4294967294)
    (hS : totalNodeCount s < 4294967296)
    (hB : ∀ b ∈ s.m_compressed_geometries, b.length ≠ UINT_MAX) :
    SerializeInternalVector s = .ok (specStream s) ∧
    (specStream s).length = s.m_compressed_geometries.length + totalNodeCount s + 3 ∧
    (specOffsets s.m_compressed_geometries).length = s.m_compressed_geometries.length + 1 ∧
    (specOffsets s.m_compressed_geometries).getD 0 0 = 0 ∧
    (∀ i j, i ≤ j → j ≤ s.m_compressed_geometries.length →
      (specOffsets s.m_compressed_geometries).getD i 0
        ≤ (specOffsets s.m_compressed_geometries).getD j 0) ∧
    (specOffsets s.m_compressed_geometries).getD s.m_compressed_geometries.length 0
      = totalNodeCount s ∧
    (∀ k, k < s.m_compressed_geometries.length → s.m_compressed_geometries.getD k [] = [] →
      (specOffsets s.m_compressed_geometries).getD (k + 1) 0
        = (specOffsets s.m_compressed_geometries).getD k 0) := by
  refine ⟨SerializeInternalVector_eq s (by omega) hS hB, ?_, length_specOffsets _, ?_, ?_, ?_, ?_⟩
  · simp only [specStream, List.length_append, List.length_singleton, length_specOffsets,
      length_flatten_nodeIds, totalNodeCount]
    omega
  · rw [getD_specOffsets _ 0 (by omega)]; simp
  · intro i j hij hj
    rw [getD_specOffsets _ i (by omega), getD_specOffsets _ j hj]
    exact sum_take_le _ i j hij
  · rw [getD_specOffsets _ _ (le_refl _)]
    simp [totalNodeCount]
  · intro k hk hempty
    rw [getD_specOffsets _ (k + 1) (by omega), getD_specOffsets _ k (by omega),
      sum_take_succ, hempty]
    simp

set_option maxRecDepth 100000 in
/-- Witness for C5, amended: the state of the spec example, 100 slots and 3 nodes. -/
theorem serialization_layout_witness :
    specExampleSecond.m_compressed_geometries.length < 4294967294 ∧
    totalNodeCount specExampleSecond < 4294967296 ∧
    (∀ b ∈ specExampleSecond.m_compressed_geometries, b.length ≠ UINT_MAX) ∧
    SerializeInternalVector specExampleSecond = .ok (specStream specExampleSecond) ∧
    (specStream specExampleSecond).length = 100 + 3 + 3 :=
  ⟨by decide, by decide, by decide,
    (serialization_layout specExampleSecond (by decide) (by decide) (by decide)).1,
    (serialization_layout specExampleSecond (by decide) (by decide) (by decide)).2.1⟩

set_option maxRecDepth 100000 in
/-- Counterexample to C6 as stated: the state of the example serializes with an offset count of
101 and 101 offsets, one per backing slot plus the sentinel, not with the two offsets `[0, 3]`
of a single bucket. -/
theorem example_offsets_are_not_two :
    runCalls (ctor 0) [⟨10, 20, 5, 6, 3, 4⟩, ⟨30, 10, 7, 8, 1, 2⟩] = .ok (100, specExampleSecond) ∧
    SerializeInternalVector specExampleSecond ≠ .ok ([2] ++ [0, 3] ++ [3] ++ [7, 5, 6]) ∧
    ∃ ws d, SerializeInternalVector specExampleSecond = .ok ws ∧ decodeStream ws = some d ∧
      d.offsetCount = 101 ∧ d.offsets.length = 101 ∧ d.offsets ≠ [0, 3] := by
  have hs : SerializeInternalVector specExampleSecond
      = .ok ([101] ++ (List.replicate 99 0 ++ [3, 3]) ++ [3] ++ [7, 5, 6]) := by decide
  have hd : decodeStream ([101] ++ (List.replicate 99 0 ++ [3, 3]) ++ [3] ++ [7, 5, 6])
      = some ⟨101, List.replicate 99 0 ++ [3, 3], 3, [7, 5, 6]⟩ := by decide
  refine ⟨rfl, ?_, _, _, hs, hd, rfl, by simp, ?_⟩
  · rw [hs]
    intro h
    have h2 := congrArg List.length (Except.ok.inj h)
    simp at h2
  · intro h
    have h2 := congrArg List.length h
    simp at h2

set_option maxRecDepth 100000 in
/-- Claim C6, amended: from a freshly constructed store, `CompressEdge(10, 20, 5, 6, 3, 4)` gives
bucket(10) = `[(5,3),(6,4)]` and no bucket for 20; then `CompressEdge(30, 10, 7, 8, 1, 2)` gives
bucket(30) = `[(7,1),(5,3),(6,4)]` and no bucket for 10; serializing that state yields offset
count 101, the 101 offsets `[0 (99 times), 3, 3]` (slot 98 holds the bucket, slot 99 is free),
total node count 3 and node ids `[7, 5, 6]`. -/
theorem spec_example_scenario :
    CompressEdge (ctor 0).1 (ctor 0).2 10 20 5 6 3 4 = .ok (100, specExampleFirst) ∧
    GetBucketReference specExampleFirst 10 = .ok [(5, 3), (6, 4)] ∧
    HasEntryForID specExampleFirst 20 = false ∧
    CompressEdge 100 specExampleFirst 30 10 7 8 1 2 = .ok (100, specExampleSecond) ∧
    GetBucketReference specExampleSecond 30 = .ok [(7, 1), (5, 3), (6, 4)] ∧
    HasEntryForID specExampleSecond 10 = false ∧
    GetBucketReference specExampleSecond 10 = .error .out_of_range ∧
    SerializeInternalVector specExampleSecond
      = .ok ([101] ++ (List.replicate 99 0 ++ [3, 3]) ++ [3] ++ [7, 5, 6]) ∧
    decodeStream ([101] ++ (List.replicate 99 0 ++ [3, 3]) ++ [3] ++ [7, 5, 6])
      = some ⟨101, List.replicate 99 0 ++ [3, 3], 3, [7, 5, 6]⟩ :=
  ⟨rfl, rfl, rfl, rfl, rfl, rfl, rfl, by decide, by decide⟩

/-- Claim C7: `GetBucketReference` fails exactly when the edge has no index entry or its slot
is not below the number of slots, its only failure is the out-of-range error, and otherwise it
returns the bucket stored at the slot. It is a function of the store and returns only the
bucket, so the store is the same afterwards. -/
theorem getBucketReference_strict (s : GeometryCompressor) (e : EdgeID) :
    (GetBucketReference s e = .error .out_of_range ↔
      (HasEntryForID s e = false ∨
        ∃ k, mapFind s.m_edge_id_to_list_index_map e = some k ∧
          ¬ k < s.m_compressed_geometries.length)) ∧
    (∀ err, GetBucketReference s e = .error err → err = .out_of_range) ∧
    (∀ k (hk : k < s.m_compressed_geometries.length),
      mapFind s.m_edge_id_to_list_index_map e = some k →
        GetBucketReference s e = .ok (s.m_compressed_geometries[k])) := by
  unfold GetBucketReference HasEntryForID
  cases hm : mapFind s.m_edge_id_to_list_index_map e with
  | none => simp
  | some k =>
    by_cases hk : k < s.m_compressed_geometries.length
    · simp only [List.getElem?_eq_getElem hk]
      refine ⟨by simp [hk], by simp, ?_⟩
      intro k1 hk1 h1
      cases h1
      rfl
    · have : s.m_compressed_geometries[k]? = none := List.getElem?_eq_none (by omega)
      simp only [this]
      refine ⟨by simp; omega, by simp, ?_⟩
      intro k1 hk1 h1
      cases h1
      exact absurd hk1 hk

/-- Claim C8: after any sequence of returning `CompressEdge` calls on a freshly constructed
store, an edge id that was never passed as `edge_id_1` has no index entry, and
`GetBucketReference` fails on it. -/
theorem never_compressed_edge_has_no_bucket (calls : List Call) (g : Nat)
    (s : GeometryCompressor) (h : runCalls (ctor 0) calls = .ok (g, s)) (e : EdgeID)
    (he : ∀ c ∈ calls, c.edge_id_1 ≠ e) :
    HasEntryForID s e = false ∧ GetBucketReference s e = .error .out_of_range := by
  have hnone : mapFind s.m_edge_id_to_list_index_map e = none :=
    runCalls_keeps_absent (p := ctor 0) (q := (g, s)) Inv.of_fresh_store e he rfl h
  exact ⟨by simp [HasEntryForID, hnone], GetBucketReference_none hnone⟩

/-- Witness for C8: in the spec example edge 20 is only ever the second edge. -/
theorem never_compressed_edge_has_no_bucket_witness :
    runCalls (ctor 0) [⟨10, 20, 5, 6, 3, 4⟩, ⟨30, 10, 7, 8, 1, 2⟩] = .ok (100, specExampleSecond) ∧
    (∀ c ∈ [(⟨10, 20, 5, 6, 3, 4⟩ : Call), ⟨30, 10, 7, 8, 1, 2⟩], c.edge_id_1 ≠ 20) ∧
    HasEntryForID specExampleSecond 20 = false ∧
    GetBucketReference specExampleSecond 20 = .error .out_of_range :=
  ⟨rfl, by decide,
    never_compressed_edge_has_no_bucket [⟨10, 20, 5, 6, 3, 4⟩, ⟨30, 10, 7, 8, 1, 2⟩] 100
      specExampleSecond rfl 20 (by decide)⟩

/-- Claim C9: in every reachable state the edge index is injective: two edge ids with the same
slot index are equal. -/
theorem edge_index_injective {g : Nat} {s : GeometryCompressor} (hr : Reachable g s)
    (e e' : EdgeID) (k : Nat) (h : mapFind s.m_edge_id_to_list_index_map e = some k)
    (h' : mapFind s.m_edge_id_to_list_index_map e' = some k) : e = e' :=
  hr.inv.core.live_inj e e' k h h'

/-- Witness for C9: the state in which edge 40 has taken slot 99, released by edge 10. -/
theorem edge_index_injective_witness :
    Reachable 100 specExampleThird ∧
    mapFind specExampleThird.m_edge_id_to_list_index_map 40 = some 99 ∧
    mapFind specExampleThird.m_edge_id_to_list_index_map 40 = some 99 ∧ (40 : EdgeID) = 40 :=
  ⟨reachable_specExampleThird, rfl, rfl,
    edge_index_injective reachable_specExampleThird 40 40 99 rfl rfl⟩

/-- Claim C10: in every reachable state no slot index is both on the free list and the value of
an index entry. -/
theorem free_list_disjoint_from_index {g : Nat} {s : GeometryCompressor} (hr : Reachable g s)
    (k : Nat) (hk : k ∈ s.m_free_list) (e : EdgeID) :
    mapFind s.m_edge_id_to_list_index_map e ≠ some k :=
  fun h => hr.inv.core.live_not_free e k h hk

/-- Witness for C10: slot 99 is free in the state of the spec example, and not indexed. -/
theorem free_list_disjoint_from_index_witness :
    Reachable 100 specExampleSecond ∧ 99 ∈ specExampleSecond.m_free_list ∧
    mapFind specExampleSecond.m_edge_id_to_list_index_map 30 ≠ some 99 :=
  ⟨reachable_specExampleSecond, by decide,
    free_list_disjoint_from_index reachable_specExampleSecond 99 (by decide) 30⟩

/-- Claim C11: in every reachable state every slot index stored in the edge index is below the
number of slots; hence `GetPositionForID` and `GetBucketReference` return for every indexed
edge, and `CompressEdge` with valid arguments returns, none of its assertions failing. -/
theorem edge_index_slots_in_range {g : Nat} {s : GeometryCompressor} (hr : Reachable g s) :
    (∀ e k, mapFind s.m_edge_id_to_list_index_map e = some k →
      k < s.m_compressed_geometries.length ∧ GetPositionForID s e = .ok k ∧
      ∃ b, GetBucketReference s e = .ok b) ∧
    (∀ e1 e2 v t w1 w2, CompressEdge.argumentsValid e1 e2 v t w1 w2 = true →
      ∃ r, CompressEdge g s e1 e2 v t w1 w2 = .ok r) := by
  refine ⟨?_, ?_⟩
  · intro e k hek
    have hk := hr.inv.core.live_lt e k hek
    exact ⟨hk, by simp [GetPositionForID, hek, hk], _, GetBucketReference_eq hek hk⟩
  · intro e1 e2 v t w1 w2 hv
    obtain ⟨g', s', hok, _⟩ := CompressEdge.step_spec hr.inv e1 e2 v t w1 w2 hv
    exact ⟨_, hok⟩

/-- Witness for C11: the state with the two indexed edges 40 and 30. -/
theorem edge_index_slots_in_range_witness :
    Reachable 100 specExampleThird ∧
    mapFind specExampleThird.m_edge_id_to_list_index_map 40 = some 99 ∧
    99 < specExampleThird.m_compressed_geometries.length ∧
    GetPositionForID specExampleThird 40 = .ok 99 :=
  ⟨reachable_specExampleThird, rfl,
    ((edge_index_slots_in_range reachable_specExampleThird).1 40 99 rfl).1,
    ((edge_index_slots_in_range reachable_specExampleThird).1 40 99 rfl).2.1⟩

/-- Claim C12: on a reachable state a call with valid arguments returns, every edge id other
than the two of the call keeps its index entry and its bucket, and the backing storage does not
shrink; this includes the call that finds the free list empty and grows the storage. -/
theorem compressEdge_frame {g : Nat} {s : GeometryCompressor} (hr : Reachable g s)
    (e1 e2 : EdgeID) (v t : NodeID) (w1 w2 : EdgeWeight)
    (hv : CompressEdge.argumentsValid e1 e2 v t w1 w2 = true) :
    ∃ g' s', CompressEdge g s e1 e2 v t w1 w2 = .ok (g', s') ∧
      (∀ e, e ≠ e1 → e ≠ e2 →
        mapFind s'.m_edge_id_to_list_index_map e = mapFind s.m_edge_id_to_list_index_map e ∧
        GetBucketReference s' e = GetBucketReference s e) ∧
      s.m_compressed_geometries.length ≤ s'.m_compressed_geometries.length := by
  obtain ⟨g', s', hok, hI', _, hidx, hbuck, _, hlen⟩ :=
    CompressEdge.step_spec hr.inv e1 e2 v t w1 w2 hv
  refine ⟨g', s', hok, ?_, hlen⟩
  intro e he1 he2
  refine ⟨hidx e he1 he2, ?_⟩
  cases hek : mapFind s.m_edge_id_to_list_index_map e with
  | none =>
    rw [GetBucketReference_none hek, GetBucketReference_none (by rw [hidx e he1 he2, hek])]
  | some k =>
    have hek' : mapFind s'.m_edge_id_to_list_index_map e = some k := by
      rw [hidx e he1 he2, hek]
    rw [GetBucketReference_eq hek (hr.inv.core.live_lt e k hek),
      GetBucketReference_eq hek' (hI'.core.live_lt e k hek'), hbuck e k he1 he2 hek]

/-- Witness for C12: the call on the full store, whose free list is empty, so that the call
grows the storage from 100 to 200 slots. -/
theorem compressEdge_frame_witness :
    Reachable 100 fullStore ∧ fullStore.m_free_list = [] ∧
    CompressEdge.argumentsValid 200 1000 9 9 9 9 = true ∧
    ∃ g' s', CompressEdge 100 fullStore 200 1000 9 9 9 9 = .ok (g', s') ∧
      (∀ e, e ≠ 200 → e ≠ 1000 →
        mapFind s'.m_edge_id_to_list_index_map e
          = mapFind fullStore.m_edge_id_to_list_index_map e ∧
        GetBucketReference s' e = GetBucketReference fullStore e) ∧
      fullStore.m_compressed_geometries.length ≤ s'.m_compressed_geometries.length :=
  ⟨reachable_fullStore, rfl, rfl, compressEdge_frame reachable_fullStore 200 1000 9 9 9 9 rfl⟩

/-- Counterexample to C13 as stated: `CompressEdge(5, 5, 1, 2, 3, 4)` on a freshly constructed
store satisfies the six assertions and returns, and edge 5 has no index entry afterwards. -/
theorem same_edge_twice_leaves_no_entry :
    CompressEdge.argumentsValid 5 5 1 2 3 4 = true ∧
    ∃ s', CompressEdge (ctor 0).1 (ctor 0).2 5 5 1 2 3 4 = .ok (100, s') ∧
      HasEntryForID s' 5 = false ∧ GetBucketReference s' 5 = .error .out_of_range :=
  ⟨rfl, _, rfl, rfl, rfl⟩

/-- Claim C13, amended: on a reachable state, a call with valid arguments and two different
edges returns, and afterwards the first edge has an index entry and a non-empty bucket. -/
theorem compressEdge_stores_under_first {g : Nat} {s : GeometryCompressor}
    (hr : Reachable g s) (e1 e2 : EdgeID) (v t : NodeID) (w1 w2 : EdgeWeight)
    (hv : CompressEdge.argumentsValid e1 e2 v t w1 w2 = true) (hne : e1 ≠ e2) :
    ∃ g' s' b, CompressEdge g s e1 e2 v t w1 w2 = .ok (g', s') ∧
      HasEntryForID s' e1 = true ∧ GetBucketReference s' e1 = .ok b ∧ b ≠ [] := by
  obtain ⟨g', s', hok, hI', _, _, _, hfirst, _⟩ :=
    CompressEdge.step_spec hr.inv e1 e2 v t w1 w2 hv
  obtain ⟨k1, hk1, _, _⟩ := hfirst hne
  refine ⟨g', s', _, hok, by simp [HasEntryForID, hk1],
    GetBucketReference_eq hk1 (hI'.core.live_lt e1 k1 hk1), ?_⟩
  have := hI'.live_two e1 k1 hk1
  intro h0
  rw [h0] at this
  simp at this

/-- Witness for C13, amended: the first call of the spec example. -/
theorem compressEdge_stores_under_first_witness :
    Reachable (ctor 0).1 (ctor 0).2 ∧ CompressEdge.argumentsValid 10 20 5 6 3 4 = true ∧
    (10 : EdgeID) ≠ 20 ∧
    ∃ g' s' b, CompressEdge (ctor 0).1 (ctor 0).2 10 20 5 6 3 4 = .ok (g', s') ∧
      HasEntryForID s' 10 = true ∧ GetBucketReference s' 10 = .ok b ∧ b ≠ [] :=
  ⟨Reachable.fresh, rfl, by decide,
    compressEdge_stores_under_first Reachable.fresh 10 20 5 6 3 4 rfl (by decide)⟩

/-- Counterexample to C14 as stated: on the reachable store in which edge 10 holds two nodes,
`CompressEdge(10, 10, 7, 8, 1, 2)` returns and leaves no node in any bucket: the total drops
from 2 to 0. -/
theorem same_edge_twice_loses_nodes :
    Reachable 100 specExampleFirst ∧ CompressEdge.argumentsValid 10 10 7 8 1 2 = true ∧
    totalNodeCount specExampleFirst = 2 ∧
    ∃ s', CompressEdge 100 specExampleFirst 10 10 7 8 1 2 = .ok (100, s') ∧
      totalNodeCount s' = 0 :=
  ⟨reachable_specExampleFirst, rfl, by decide, _, rfl, by decide⟩

/-- Claim C14, amended: on a reachable state, a call with valid arguments and two different
edges returns, and the total number of nodes over all buckets afterwards is at least the total
before. The content of an absorbed bucket is transferred, never lost or duplicated: the bucket
of the first edge is its own contribution followed by the old bucket of the second edge, the
second edge has no entry and its old slot is empty, and the total grows by exactly the pairs
the call pushes, one via pair when the first edge had no entry and one target pair when the
second edge had none (so by nothing when a bucket is absorbed into an existing one). -/
theorem node_count_monotone {g : Nat} {s : GeometryCompressor} (hr : Reachable g s)
    (e1 e2 : EdgeID) (v t : NodeID) (w1 w2 : EdgeWeight)
    (hv : CompressEdge.argumentsValid e1 e2 v t w1 w2 = true) (hne : e1 ≠ e2) :
    ∃ g' s', CompressEdge g s e1 e2 v t w1 w2 = .ok (g', s') ∧
      totalNodeCount s ≤ totalNodeCount s' ∧
      totalNodeCount s' = totalNodeCount s
        + (if HasEntryForID s e1 = true then 0 else 1)
        + (if HasEntryForID s e2 = true then 0 else 1) ∧
      GetBucketReference s' e1
        = .ok (CompressEdge.firstPart s e1 v w1 ++ CompressEdge.secondPart s e2 t w2) ∧
      HasEntryForID s' e2 = false ∧
      (∀ k2, mapFind s.m_edge_id_to_list_index_map e2 = some k2 →
        s'.m_compressed_geometries.getD k2 [] = []) := by
  obtain ⟨g', s', hok, hI', hgone, _, _, hfirst, _⟩ :=
    CompressEdge.step_spec hr.inv e1 e2 v t w1 w2 hv
  obtain ⟨k1, hk1, _, hb⟩ := hfirst hne
  have hex := CompressEdge.total_exact hr.inv hne hok
  refine ⟨g', s', hok, ?_, hex.1, ?_, by simp [HasEntryForID, hgone], hex.2⟩
  · rw [hex.1]
    omega
  · rw [GetBucketReference_eq hk1 (hI'.core.live_lt e1 k1 hk1), hb]

/-- Witness for C14, amended: the splice of the chain of edge 3 onto the chain of edge 1 in
`twoChains`; both edges have a bucket, and the total stays at 4. -/
theorem node_count_monotone_witness :
    Reachable 100 twoChains ∧ CompressEdge.argumentsValid 1 3 7 8 5 6 = true ∧
    (1 : EdgeID) ≠ 3 ∧
    ∃ g' s', CompressEdge 100 twoChains 1 3 7 8 5 6 = .ok (g', s') ∧
      totalNodeCount twoChains ≤ totalNodeCount s' ∧
      totalNodeCount s' = totalNodeCount twoChains
        + (if HasEntryForID twoChains 1 = true then 0 else 1)
        + (if HasEntryForID twoChains 3 = true then 0 else 1) ∧
      GetBucketReference s' 1
        = .ok (CompressEdge.firstPart twoChains 1 7 5 ++ CompressEdge.secondPart twoChains 3 8 6) ∧
      HasEntryForID s' 3 = false ∧
      (∀ k2, mapFind twoChains.m_edge_id_to_list_index_map 3 = some k2 →
        s'.m_compressed_geometries.getD k2 [] = []) :=
  ⟨reachable_twoChains, rfl, by decide,
    node_count_monotone reachable_twoChains 1 3 7 8 5 6 rfl (by decide)⟩

/-- Claim C15: two store states with the same number of slots and, slot by slot, the same node
ids produce the same result of `SerializeInternalVector`, whatever their weights (and whatever
their free lists and indexes). The writer is a function of the store and returns only the
words, so writing an unchanged state twice gives the same words and the state is the same. -/
theorem serialization_ignores_weights (s s' : GeometryCompressor)
    (h : s.m_compressed_geometries.map nodeIds = s'.m_compressed_geometries.map nodeIds) :
    SerializeInternalVector s = SerializeInternalVector s' := by
  have hlen : s.m_compressed_geometries.length = s'.m_compressed_geometries.length := by
    have := congrArg List.length h
    simpa using this
  unfold SerializeInternalVector
  rw [hlen, writeIndices_congr _ _ 0 (map_length_of_map_nodeIds _ _ h),
    writeGeometries_congr _ _ 0 h]

set_option maxRecDepth 100000 in
/-- Witness for C15: the state of the spec example and the same state with other weights. -/
theorem serialization_ignores_weights_witness :
    specExampleSecond.m_compressed_geometries.map nodeIds
      = specExampleReweighted.m_compressed_geometries.map nodeIds ∧
    specExampleSecond ≠ specExampleReweighted ∧
    SerializeInternalVector specExampleSecond = SerializeInternalVector specExampleReweighted :=
  ⟨by decide, by decide,
    serialization_ignores_weights specExampleSecond specExampleReweighted (by decide)⟩

/-- Claim C16: for every store state, when both loops of the writer return, the control sum of
the second equals the sum the first wrote as sentinel and total; both are the total node count
modulo `2^32`; the number of node ids written is the total node count, which is the declared
total when it is below `2^32`; and the writer then returns, its final assertion holding. -/
theorem control_sum_matches (s : GeometryCompressor) (indices geometries : List Nat × Nat)
    (hi : SerializeInternalVector.writeIndices s.m_compressed_geometries 0 = .ok indices)
    (hg : SerializeInternalVector.writeGeometries s.m_compressed_geometries 0 = .ok geometries) :
    geometries.2 = indices.2 ∧
    indices.2 = totalNodeCount s % 4294967296 ∧
    geometries.1.length = totalNodeCount s ∧
    (totalNodeCount s < 4294967296 → geometries.1.length = indices.2) ∧
    (UINT_MAX ≠ (s.m_compressed_geometries.length + 1) % 4294967296 →
      s.m_compressed_geometries.length < 4294967296 →
      SerializeInternalVector s = .ok
        ([(s.m_compressed_geometries.length + 1) % 4294967296] ++ indices.1 ++ [indices.2]
          ++ [indices.2] ++ geometries.1)) := by
  have h1 := writeIndices_sum _ 0 (by decide) indices hi
  have h2 := writeGeometries_sum _ 0 (by decide) geometries hg
  simp only [Nat.zero_add] at h1 h2
  have heq : geometries.2 = indices.2 := by rw [h1, h2.1]
  have hlen : geometries.1.length = totalNodeCount s := by
    rw [h2.2, length_flatten_nodeIds]
    rfl
  refine ⟨heq, h1, hlen, ?_, ?_⟩
  · intro hlt
    rw [hlen, h1]
    exact (Nat.mod_eq_of_lt hlt).symm
  · intro hne hlt
    have hlt' : ¬ 4294967296 ≤ s.m_compressed_geometries.length := by omega
    simp only [SerializeInternalVector, hne, hlt', if_false, hi, hg, heq, if_true]

set_option maxRecDepth 100000 in
/-- Witness for C16: the two loops on the state of the spec example. -/
theorem control_sum_matches_witness :
    SerializeInternalVector.writeIndices specExampleSecond.m_compressed_geometries 0
      = .ok (List.replicate 99 0 ++ [3], 3) ∧
    SerializeInternalVector.writeGeometries specExampleSecond.m_compressed_geometries 0
      = .ok ([7, 5, 6], 3) ∧
    (([7, 5, 6], 3) : List Nat × Nat).2 = ((List.replicate 99 0 ++ [3], 3) : List Nat × Nat).2 :=
  ⟨by decide, by decide,
    (control_sum_matches specExampleSecond (List.replicate 99 0 ++ [3], 3) ([7, 5, 6], 3)
      (by decide) (by decide)).1⟩

/-- Claim C17: in every reachable state the bucket at every slot index on the free list is
empty, and the slot that a call registers for an edge without an index entry holds an empty
bucket when it is handed out. -/
theorem free_slots_are_empty {g : Nat} {s : GeometryCompressor} (hr : Reachable g s) :
    (∀ k ∈ s.m_free_list, s.m_compressed_geometries.getD k [] = []) ∧
    (∀ e1, HasEntryForID s e1 = false →
      ∃ g1 s1 k, CompressEdge.createEntry g s e1 = .ok (g1, s1) ∧
        mapFind s1.m_edge_id_to_list_index_map e1 = some k ∧
        s1.m_compressed_geometries.getD k [] = []) := by
  refine ⟨hr.inv.core.free_empty, ?_⟩
  intro e1 h1
  exact createEntry_fresh_slot hr.inv.core (by simpa [HasEntryForID] using h1)

/-- Witness for C17: in the state of the spec example slot 99, released by edge 10, is on the
free list and empty, and it is the slot handed to edge 40. -/
theorem free_slots_are_empty_witness :
    Reachable 100 specExampleSecond ∧ 99 ∈ specExampleSecond.m_free_list ∧
    specExampleSecond.m_compressed_geometries.getD 99 [] = [] ∧
    HasEntryForID specExampleSecond 40 = false ∧
    ∃ g1 s1 k, CompressEdge.createEntry 100 specExampleSecond 40 = .ok (g1, s1) ∧
      mapFind s1.m_edge_id_to_list_index_map 40 = some k ∧
      s1.m_compressed_geometries.getD k [] = [] :=
  ⟨reachable_specExampleSecond, by decide,
    (free_slots_are_empty reachable_specExampleSecond).1 99 (by decide), rfl,
    (free_slots_are_empty reachable_specExampleSecond).2 40 rfl⟩

set_option maxRecDepth 100000 in
/-- Evaluation for C18: `IncreaseFreeList` appends the 100 values `g .. g+99` of the global
counter, whatever the number of slots. A store constructed after another one (the counter then
being 100) has 100 slots and the free list `100 .. 199`, not the indices `0 .. 99` of its
slots, and its first `CompressEdge` call fails the assertion that the slot index is below the
number of slots. -/
theorem second_store_free_list_out_of_range :
    (∀ g s, IncreaseFreeList g s = (g + 100,
      ⟨s.m_compressed_geometries ++ List.replicate 100 [], s.m_free_list ++ List.range' g 100,
        s.m_edge_id_to_list_index_map⟩)) ∧
    (ctor 0).1 = 100 ∧
    (ctor (ctor 0).1).2.m_compressed_geometries.length = 100 ∧
    (ctor (ctor 0).1).2.m_free_list = List.range' 100 100 ∧
    (ctor (ctor 0).1).2.m_free_list ≠ List.range' 0 100 ∧
    CompressEdge (ctor (ctor 0).1).1 (ctor (ctor 0).1).2 1 2 3 4 5 6 = .error .assertion :=
  ⟨fun g s => by simp [IncreaseFreeList, IncreaseFreeList.loop_eq],
    rfl, rfl, rfl, by decide, rfl⟩

set_option maxRecDepth 100000 in
/-- Evaluation for C19: the number `PrintStatistics` reports as compressed edges is the number
of slots of the backing storage; on the state of the spec example, with one live bucket, and on
a freshly constructed store, with none, it reports 100. -/
theorem statistics_count_all_slots :
    (∀ s st, PrintStatistics s = .ok st →
      st.compressed_edges = s.m_compressed_geometries.length % 4294967296) ∧
    Reachable 100 specExampleSecond ∧ liveBucketCount specExampleSecond = 1 ∧
    PrintStatistics specExampleSecond = .ok ⟨100, 3, 3, 3, 100, 420⟩ ∧
    liveBucketCount (ctor 0).2 = 0 ∧
    PrintStatistics (ctor 0).2 = .ok ⟨100, 0, 0, 1, 100, 408⟩ :=
  ⟨PrintStatistics_compressed_edges, reachable_specExampleSecond, rfl, rfl, rfl, rfl⟩

/-- Claim C20: in every reachable state every indexed edge has a bucket of at least two nodes;
and the bucket of the first edge of a call is empty after the slot lookup of lines 155-168
exactly when the edge had no index entry before the call. -/
theorem live_buckets_have_two_nodes {g : Nat} {s : GeometryCompressor} (hr : Reachable g s) :
    (∀ e b, GetBucketReference s e = .ok b → 2 ≤ b.length) ∧
    (∀ e k, mapFind s.m_edge_id_to_list_index_map e = some k →
      2 ≤ (s.m_compressed_geometries.getD k []).length) ∧
    (∀ e1, ∃ g1 s1 k1, CompressEdge.createEntry g s e1 = .ok (g1, s1) ∧
      mapFind s1.m_edge_id_to_list_index_map e1 = some k1 ∧
      (s1.m_compressed_geometries.getD k1 [] = [] ↔ HasEntryForID s e1 = false)) := by
  refine ⟨?_, hr.inv.live_two, ?_⟩
  · intro e b hb
    obtain ⟨k, hk, _, hget⟩ := GetBucketReference_ok hb
    rw [← hget]
    exact hr.inv.live_two e k hk
  · intro e1
    cases h1 : mapFind s.m_edge_id_to_list_index_map e1 with
    | none =>
      obtain ⟨g1, s1, k, hce, hk, hempty⟩ := createEntry_fresh_slot hr.inv.core h1
      exact ⟨g1, s1, k, hce, hk, ⟨fun _ => by simp [HasEntryForID, h1], fun _ => hempty⟩⟩
    | some k1 =>
      refine ⟨g, s, k1, createEntry_live h1, h1, ?_⟩
      have := hr.inv.live_two e1 k1 h1
      constructor
      · intro h0
        rw [h0] at this
        simp at this
      · intro hno
        simp [HasEntryForID, h1] at hno

/-- Witness for C20: the state with the indexed edges 40 (two nodes) and 30 (three nodes). -/
theorem live_buckets_have_two_nodes_witness :
    Reachable 100 specExampleThird ∧
    GetBucketReference specExampleThird 40 = .ok [(9, 1), (10, 1)] ∧
    2 ≤ ([(9, 1), (10, 1)] : List CompressedNode).length :=
  ⟨reachable_specExampleThird, rfl,
    (live_buckets_have_two_nodes reachable_specExampleThird).1 40 _ rfl⟩

end OSRM
